import Mathlib

/-!
Shallow embedding of the ServerWorks OSB4 SMBus driver
(src/kernel/busses/i2c-osb4.c, lm-sensors).

Port I/O is modelled over an oracle: `oracle port i` is the byte the
hardware presents on the i-th read of that port.  Writes and pauses are
recorded in a chronological event trace; reads are recorded together with
the byte obtained.  Register names are the byte offsets of the registers
relative to the base address osb4_smba (the base itself plays no role in
the protocol logic and is elided).  The model follows the source with
DEBUG undefined, which is the default build: every `#ifdef DEBUG` block of
the source is absent.
-/

/- ---------------- Register offsets (relative to osb4_smba) ------------- -/

def SMBHSTSTS : Nat := 0
def SMBHSLVSTS : Nat := 1
def SMBHSTCNT : Nat := 2
def SMBHSTCMD : Nat := 3
def SMBHSTADD : Nat := 4
def SMBHSTDAT0 : Nat := 5
def SMBHSTDAT1 : Nat := 6
def SMBBLKDAT : Nat := 7

/- ---------------- Other settings from the source ----------------------- -/

def MAX_TIMEOUT : Nat := 500

def ENABLE_INT9 : Nat := 0

/- OSB4 size-class codes -/

def OSB4_QUICK : Nat := 0x00
def OSB4_BYTE : Nat := 0x04
def OSB4_BYTE_DATA : Nat := 0x08
def OSB4_WORD_DATA : Nat := 0x0C
def OSB4_BLOCK_DATA : Nat := 0x14

/-- Modelled from the spec: the generic SMBus size-class and direction
constants of the embedding system header linux/i2c.h, which is not part
of this repository.  The driver dispatches on them in osb4_access. -/
def I2C_SMBUS_READ : Nat := 1

def I2C_SMBUS_WRITE : Nat := 0

def I2C_SMBUS_QUICK : Nat := 0

def I2C_SMBUS_BYTE : Nat := 1

def I2C_SMBUS_BYTE_DATA : Nat := 2

def I2C_SMBUS_WORD_DATA : Nat := 3

def I2C_SMBUS_PROC_CALL : Nat := 4

def I2C_SMBUS_BLOCK_DATA : Nat := 5

/- ---------------- The I/O model ---------------------------------------- -/

/-- One port I/O event: a byte read, a byte write, or a scheduler pause. -/
inductive Ev where
  | rd (port val : Nat)
  | wr (port val : Nat)
  | pause (amount : Nat)
deriving DecidableEq, Repr

/-- The I/O state: per-port read counters (selecting the next oracle value)
and the chronological event trace. -/
structure IOState where
  counts : Nat → Nat
  trace : List Ev

/-- inb_p: read a byte from a port.  The byte is the next oracle value for
that port, reduced to a byte. -/
def inb_p (oracle : Nat → Nat → Nat) (port : Nat) (s : IOState) : Nat × IOState :=
  let v := oracle port (s.counts port) % 256
  (v, ⟨fun q => if q = port then s.counts port + 1 else s.counts q, s.trace ++ [Ev.rd port v]⟩)

/-- inb: same observable behaviour as inb_p in this model (the source
variants differ only in bus pacing). -/
def inb (oracle : Nat → Nat → Nat) (port : Nat) (s : IOState) : Nat × IOState :=
  inb_p oracle port s

/-- outb_p: write a byte to a port (recorded in the trace). -/
def outb_p (v port : Nat) (s : IOState) : IOState :=
  ⟨s.counts, s.trace ++ [Ev.wr port v]⟩

/-- osb4_do_pause: suspend for the given number of scheduler ticks
(recorded in the trace). -/
def osb4_do_pause (amount : Nat) (s : IOState) : IOState :=
  ⟨s.counts, s.trace ++ [Ev.pause amount]⟩

/- ---------------- Transaction engine ----------------------------------- -/

/-- The busy-check head of osb4_transaction (source lines 264-281): read
the status register; if non-zero, write the same value back and re-read;
if the re-read is still non-zero the transaction is abandoned (the Bool
result is false). -/
def osb4_busy_check (oracle : Nat → Nat → Nat) (s : IOState) : Bool × IOState :=
  let (temp, s1) := inb_p oracle SMBHSTSTS s
  if temp ≠ 0 then
    let s2 := outb_p temp SMBHSTSTS s1
    let (temp2, s3) := inb_p oracle SMBHSTSTS s2
    if temp2 ≠ 0 then (false, s3) else (true, s3)
  else (true, s1)

/-- The polling loop of osb4_transaction (source lines 287-290):
`do { osb4_do_pause(1); temp = inb_p(SMBHSTSTS); }
 while ((temp & 0x01) && (timeout++ < MAX_TIMEOUT));`
The first argument counts the loop-guard comparisons that can still
succeed, so it equals MAX_TIMEOUT - timeout; at the top call it is
MAX_TIMEOUT with timeout 0, and the C guard `timeout++ < MAX_TIMEOUT`
succeeds exactly when it is non-zero.  Returns the last status byte, the
final value of the C variable timeout, and the final state. -/
def osb4_poll (oracle : Nat → Nat → Nat) : Nat → Nat → IOState → Nat × Nat × IOState
  | 0, timeout, s =>
    let s1 := osb4_do_pause 1 s
    let (temp, s2) := inb_p oracle SMBHSTSTS s1
    if temp &&& 0x01 ≠ 0 then (temp, timeout + 1, s2) else (temp, timeout, s2)
  | r + 1, timeout, s =>
    let s1 := osb4_do_pause 1 s
    let (temp, s2) := inb_p oracle SMBHSTSTS s1
    if temp &&& 0x01 ≠ 0 then osb4_poll oracle r (timeout + 1) s2
    else (temp, timeout, s2)

/-- The end-of-transaction status clear of osb4_transaction (source lines
322-331): read the status register; if non-zero, read it again and write
that value back; finally read it once more (the source assigns it to temp
for a check whose body exists only under DEBUG). -/
def osb4_status_clear (oracle : Nat → Nat → Nat) (s : IOState) : IOState :=
  let (t1, s5) := inb_p oracle SMBHSTSTS s
  let s6 :=
    if t1 ≠ 0 then
      let (t2, s5a) := inb oracle SMBHSTSTS s5
      outb_p t2 SMBHSTSTS s5a
    else s5
  (inb_p oracle SMBHSTSTS s6).2

/-- The arming write of osb4_transaction (source line 284): read the
command register and write it back with the start bit (bit 6) set. -/
def osb4_arm (oracle : Nat → Nat → Nat) (s : IOState) : IOState :=
  outb_p ((inb oracle SMBHSTCNT (osb4_busy_check oracle s).2).1 ||| 0x40) SMBHSTCNT
    (inb oracle SMBHSTCNT (osb4_busy_check oracle s).2).2

/-- osb4_transaction (source lines 251-339), DEBUG undefined.  Note that in
the source the statement `result = -1;` under the timeout check at lines
293-298 sits inside the `#ifdef DEBUG` block, so in this (default) build a
pure timeout leaves result at 0. -/
def osb4_transaction (oracle : Nat → Nat → Nat) (s : IOState) : Int × IOState :=
  let bc := osb4_busy_check oracle s
  if bc.1 = false then ((-1 : Int), bc.2) else
  let (cnt, s2) := inb oracle SMBHSTCNT bc.2
  let s3 := outb_p (cnt ||| 0x40) SMBHSTCNT s2
  let pr := osb4_poll oracle MAX_TIMEOUT 0 s3
  let temp := pr.1
  let result : Int := 0
  -- the `timeout >= MAX_TIMEOUT` check changes result only under DEBUG
  let result := if temp &&& 0x10 ≠ 0 then -1 else result
  let result := if temp &&& 0x08 ≠ 0 then -1 else result
  let result := if temp &&& 0x04 ≠ 0 then -1 else result
  (result, osb4_status_clear oracle pr.2.2)

/- ---------------- Protocol adapter ------------------------------------- -/

/-- The generic SMBus data union: a byte, a word, and the 34-entry block
array (index 0 is the length), modelled as a total function. -/
structure SMBusData where
  byte : Nat
  word : Nat
  block : Nat → Nat

/-- The payload loop of the block-data write path (source lines 395-396):
`for (i = 1; i <= len; i++) outb_p(data->block[i], SMBBLKDAT);`
with the number of remaining iterations passed explicitly
(call with i = 1 and count len). -/
def osb4_write_block (blk : Nat → Nat) : Nat → Nat → IOState → IOState
  | _, 0, s => s
  | i, n + 1, s => osb4_write_block blk (i + 1) n (outb_p (blk i) SMBBLKDAT s)

/-- The payload loop of the block-data read path (source lines 427-428):
`for (i = 1; i <= data->block[0]; i++) data->block[i] = inb_p(SMBBLKDAT);`
with the number of remaining iterations passed explicitly
(call with i = 1 and count data.block 0). -/
def osb4_read_block (oracle : Nat → Nat → Nat) :
    Nat → Nat → (Nat → Nat) → IOState → (Nat → Nat) × IOState
  | _, 0, blk, s => (blk, s)
  | i, n + 1, blk, s =>
    let (v, s1) := inb_p oracle SMBBLKDAT s
    osb4_read_block oracle (i + 1) n (fun j => if j = i then v else blk j) s1

/-- The register-loading switch of osb4_access (source lines 348-400):
per size class, load the address/direction byte, the command code and the
outgoing payload, and map the generic size to the OSB4 size-class code
(the C code overwrites its size variable).  The switch has no default
case: an unhandled size loads nothing and keeps the raw size value. -/
def osb4_access_regs (oracle : Nat → Nat → Nat) (addr read_write command size : Nat)
    (data : SMBusData) (s : IOState) : Nat × IOState :=
  if size = I2C_SMBUS_QUICK then
    let s := outb_p (((addr &&& 0x7f) <<< 1) ||| (read_write &&& 0x01)) SMBHSTADD s
    (OSB4_QUICK, s)
  else if size = I2C_SMBUS_BYTE then
    let s := outb_p (((addr &&& 0x7f) <<< 1) ||| (read_write &&& 0x01)) SMBHSTADD s
    let s := if read_write = I2C_SMBUS_WRITE then outb_p command SMBHSTCMD s else s
    (OSB4_BYTE, s)
  else if size = I2C_SMBUS_BYTE_DATA then
    let s := outb_p (((addr &&& 0x7f) <<< 1) ||| (read_write &&& 0x01)) SMBHSTADD s
    let s := outb_p command SMBHSTCMD s
    let s := if read_write = I2C_SMBUS_WRITE then outb_p data.byte SMBHSTDAT0 s else s
    (OSB4_BYTE_DATA, s)
  else if size = I2C_SMBUS_WORD_DATA then
    let s := outb_p (((addr &&& 0x7f) <<< 1) ||| (read_write &&& 0x01)) SMBHSTADD s
    let s := outb_p command SMBHSTCMD s
    let s :=
      if read_write = I2C_SMBUS_WRITE then
        let s := outb_p (data.word &&& 0xff) SMBHSTDAT0 s
        outb_p ((data.word &&& 0xff00) >>> 8) SMBHSTDAT1 s
      else s
    (OSB4_WORD_DATA, s)
  else if size = I2C_SMBUS_BLOCK_DATA then
    let s := outb_p (((addr &&& 0x7f) <<< 1) ||| (read_write &&& 0x01)) SMBHSTADD s
    let s := outb_p command SMBHSTCMD s
    let s :=
      if read_write = I2C_SMBUS_WRITE then
        -- in the source len is an int loaded from the u8 data->block[0];
        -- the `if (len < 0) len = 0;` guard is mirrored on the Int copy
        let len : Int := data.block 0
        let len := if len < 0 then 0 else len
        let len := if len > 32 then 32 else len
        let s := outb_p len.toNat SMBHSTDAT0 s
        let s := (inb_p oracle SMBHSTCNT s).2
        osb4_write_block data.block 1 len.toNat s
      else s
    (OSB4_BLOCK_DATA, s)
  else (size, s)

/-- The tail of osb4_access after the register loads (source lines
402-431): write the size-class bits plus the interrupt-enable bit to the
command register, run the transaction, and on success read back the
result registers for read-direction transfers. -/
def osb4_access_run (oracle : Nat → Nat → Nat) (read_write size2 : Nat)
    (data : SMBusData) (s1 : IOState) : Int × SMBusData × IOState :=
  let s2 := outb_p ((size2 &&& 0x1C) + (ENABLE_INT9 &&& 1)) SMBHSTCNT s1
  let tr := osb4_transaction oracle s2
  if tr.1 ≠ 0 then ((-1 : Int), data, tr.2) else
  if read_write = I2C_SMBUS_WRITE ∨ size2 = OSB4_QUICK then (0, data, tr.2) else
  if size2 = OSB4_BYTE then
    let (v, s) := inb_p oracle SMBHSTDAT0 tr.2
    (0, { data with byte := v }, s)
  else if size2 = OSB4_BYTE_DATA then
    let (v, s) := inb_p oracle SMBHSTDAT0 tr.2
    (0, { data with byte := v }, s)
  else if size2 = OSB4_WORD_DATA then
    let (lo, s) := inb_p oracle SMBHSTDAT0 tr.2
    let (hi, s) := inb_p oracle SMBHSTDAT1 s
    (0, { data with word := lo + (hi <<< 8) }, s)
  else if size2 = OSB4_BLOCK_DATA then
    let (lenb, s) := inb_p oracle SMBHSTDAT0 tr.2
    let blk0 : Nat → Nat := fun j => if j = 0 then lenb else data.block j
    let s := (inb_p oracle SMBHSTCNT s).2
    let (blk1, s) := osb4_read_block oracle 1 (blk0 0) blk0 s
    (0, { data with block := blk1 }, s)
  else (0, data, tr.2)

/-- osb4_access (source lines 342-432): reject procedure-call, load the
registers for the size class, then arm, poll and read back. -/
def osb4_access (oracle : Nat → Nat → Nat) (addr read_write command : Nat)
    (size : Nat) (data : SMBusData) (s : IOState) : Int × SMBusData × IOState :=
  if size = I2C_SMBUS_PROC_CALL then ((-1 : Int), data, s) else
  let (size2, s1) := osb4_access_regs oracle addr read_write command size data s
  osb4_access_run oracle read_write size2 data s1

/- ---------------- Controller locator/enabler --------------------------- -/

/-- A PCI configuration-space write performed by osb4_setup. -/
inductive CfgEv where
  | wbyte (off val : Nat)
  | wword (off val : Nat)
deriving DecidableEq, Repr

/-- PCI address constants of the source. -/
def SMBBA : Nat := 0x090

def SMBHSTCFG : Nat := 0x0D2

def ENODEV : Int := 19

/-- The environment osb4_setup probes: whether the PCI bus is reachable,
whether the OSB4 function 0 exists, the value of the SMBBA base-address
configuration word, whether the 8-byte I/O region is already in use, and
the value of the SMBHSTCFG host-configuration byte. -/
structure SetupEnv where
  pci_present : Bool
  found_function0 : Bool
  smbba_reg : Nat
  region_used : Bool
  hstcfg_reg : Nat

/-- The observable outcome of osb4_setup: the returned error code, the
final value of the global osb4_smba, the configuration-space writes
performed, and whether request_region was reached. -/
structure SetupResult where
  error_return : Int
  osb4_smba : Nat
  cfg_writes : List CfgEv
  region_requested : Bool
deriving DecidableEq, Repr

/-- osb4_setup (source lines 142-240), DEBUG undefined. -/
def osb4_setup (force force_addr : Nat) (env : SetupEnv) : SetupResult :=
  if env.pci_present = false then ⟨-ENODEV, 0, [], false⟩ else
  if env.found_function0 = false then ⟨-ENODEV, 0, [], false⟩ else
  let osb4_smba := if force_addr ≠ 0 then force_addr &&& 0xfff0
                   else env.smbba_reg &&& 0xfff0
  let force := if force_addr ≠ 0 then 0 else force
  if env.region_used then ⟨-ENODEV, osb4_smba, [], false⟩ else
  let temp := env.hstcfg_reg
  if force_addr ≠ 0 then
    ⟨0, osb4_smba,
     [CfgEv.wbyte SMBHSTCFG (temp &&& 0xfe), CfgEv.wword SMBBA osb4_smba,
      CfgEv.wbyte SMBHSTCFG (temp ||| 0x01)], true⟩
  else if temp &&& 1 = 0 then
    if force ≠ 0 then ⟨0, osb4_smba, [CfgEv.wbyte SMBHSTCFG (temp ||| 1)], true⟩
    else ⟨-ENODEV, osb4_smba, [], false⟩
  else ⟨0, osb4_smba, [], true⟩

/- ---------------- Trace observations ----------------------------------- -/

/-- The chronological list of values written to port p in a trace. -/
def wTo (p : Nat) (l : List Ev) : List Nat :=
  l.filterMap fun e => match e with
    | Ev.wr q v => if q = p then some v else none
    | _ => none

/-- The number of pause events in a trace: one per polling iteration. -/
def nPause (l : List Ev) : Nat :=
  l.countP fun e => match e with | Ev.pause _ => true | _ => false

@[simp] theorem wTo_nil (p : Nat) : wTo p [] = [] := rfl

@[simp] theorem wTo_append (p : Nat) (l1 l2 : List Ev) :
    wTo p (l1 ++ l2) = wTo p l1 ++ wTo p l2 := by
  simp [wTo]

@[simp] theorem wTo_rd (p q v : Nat) (l : List Ev) :
    wTo p (l ++ [Ev.rd q v]) = wTo p l := by
  simp [wTo]

@[simp] theorem wTo_pause (p a : Nat) (l : List Ev) :
    wTo p (l ++ [Ev.pause a]) = wTo p l := by
  simp [wTo]

theorem wTo_wr (p q v : Nat) (l : List Ev) :
    wTo p (l ++ [Ev.wr q v]) = wTo p l ++ (if q = p then [v] else []) := by
  by_cases h : q = p <;> simp [wTo, h]

@[simp] theorem wTo_wr_same (p v : Nat) (l : List Ev) :
    wTo p (l ++ [Ev.wr p v]) = wTo p l ++ [v] := by
  simp [wTo]

@[simp] theorem wTo_wr_ne (p q v : Nat) (l : List Ev) (h : q ≠ p) :
    wTo p (l ++ [Ev.wr q v]) = wTo p l := by
  simp [wTo, h]

@[simp] theorem nPause_nil : nPause [] = 0 := rfl

@[simp] theorem nPause_append (l1 l2 : List Ev) :
    nPause (l1 ++ l2) = nPause l1 + nPause l2 := by
  simp [nPause]

@[simp] theorem nPause_rd (q v : Nat) (l : List Ev) :
    nPause (l ++ [Ev.rd q v]) = nPause l := by
  simp [nPause]

@[simp] theorem nPause_wr (q v : Nat) (l : List Ev) :
    nPause (l ++ [Ev.wr q v]) = nPause l := by
  simp [nPause]

@[simp] theorem nPause_pause (a : Nat) (l : List Ev) :
    nPause (l ++ [Ev.pause a]) = nPause l + 1 := by
  simp [nPause]

/- ---------------- Shape lemmas for the engine stages ------------------- -/

@[simp] theorem inb_p_trace (oracle : Nat → Nat → Nat) (p : Nat) (s : IOState) :
    (inb_p oracle p s).2.trace = s.trace ++ [Ev.rd p (oracle p (s.counts p) % 256)] := rfl

@[simp] theorem inb_p_fst (oracle : Nat → Nat → Nat) (p : Nat) (s : IOState) :
    (inb_p oracle p s).1 = oracle p (s.counts p) % 256 := rfl

theorem inb_p_counts (oracle : Nat → Nat → Nat) (p q : Nat) (s : IOState) :
    (inb_p oracle p s).2.counts q = if q = p then s.counts p + 1 else s.counts q := rfl

@[simp] theorem inb_p_counts_ne (oracle : Nat → Nat → Nat) (p q : Nat) (s : IOState)
    (h : q ≠ p) : (inb_p oracle p s).2.counts q = s.counts q := by
  simp [inb_p_counts, h]

@[simp] theorem inb_p_counts_same (oracle : Nat → Nat → Nat) (p : Nat) (s : IOState) :
    (inb_p oracle p s).2.counts p = s.counts p + 1 := by
  simp [inb_p_counts]

@[simp] theorem outb_p_trace (v p : Nat) (s : IOState) :
    (outb_p v p s).trace = s.trace ++ [Ev.wr p v] := rfl

@[simp] theorem outb_p_counts (v p : Nat) (s : IOState) :
    (outb_p v p s).counts = s.counts := rfl

@[simp] theorem osb4_do_pause_trace (a : Nat) (s : IOState) :
    (osb4_do_pause a s).trace = s.trace ++ [Ev.pause a] := rfl

@[simp] theorem osb4_do_pause_counts (a : Nat) (s : IOState) :
    (osb4_do_pause a s).counts = s.counts := rfl

/-- Shape of one osb4_busy_check run: the events it appends touch only the
status register, it pauses nowhere, and it leaves every other read counter
unchanged. -/
theorem osb4_busy_check_shape (oracle : Nat → Nat → Nat) (s : IOState) :
    ∃ δ, (osb4_busy_check oracle s).2.trace = s.trace ++ δ ∧
      nPause δ = 0 ∧ (∀ p, p ≠ SMBHSTSTS → wTo p δ = []) ∧
      (∀ q, q ≠ SMBHSTSTS → (osb4_busy_check oracle s).2.counts q = s.counts q) := by
  by_cases h : oracle SMBHSTSTS (s.counts SMBHSTSTS) % 256 = 0
  · refine ⟨[Ev.rd SMBHSTSTS 0], ?_, ?_, ?_, ?_⟩
    · simp [osb4_busy_check, inb_p, h]
    · simp [nPause]
    · intro p hp
      simp [wTo, Ne.symm hp]
    · intro q hq
      simp [osb4_busy_check, inb_p, h, hq]
  · refine ⟨[Ev.rd SMBHSTSTS (oracle SMBHSTSTS (s.counts SMBHSTSTS) % 256),
      Ev.wr SMBHSTSTS (oracle SMBHSTSTS (s.counts SMBHSTSTS) % 256),
      Ev.rd SMBHSTSTS (oracle SMBHSTSTS (s.counts SMBHSTSTS + 1) % 256)], ?_, ?_, ?_, ?_⟩
    · by_cases h2 : oracle SMBHSTSTS (s.counts SMBHSTSTS + 1) % 256 = 0 <;>
        simp [osb4_busy_check, inb_p, outb_p, h, h2]
    · simp [nPause]
    · intro p hp
      simp [wTo, Ne.symm hp]
    · intro q hq
      by_cases h2 : oracle SMBHSTSTS (s.counts SMBHSTSTS + 1) % 256 = 0 <;>
        simp [osb4_busy_check, inb_p, outb_p, h, h2, hq]

/-- Shape of one polling-loop run: it appends only pauses and status
reads (never a write), at most rem + 1 pauses, and leaves every read
counter other than the status register unchanged. -/
theorem osb4_poll_shape (oracle : Nat → Nat → Nat) (rem t : Nat) (s : IOState) :
    ∃ δ, (osb4_poll oracle rem t s).2.2.trace = s.trace ++ δ ∧
      nPause δ ≤ rem + 1 ∧ (∀ p, wTo p δ = []) ∧
      (∀ q, q ≠ SMBHSTSTS → (osb4_poll oracle rem t s).2.2.counts q = s.counts q) := by
  induction rem generalizing t s with
  | zero =>
    refine ⟨[Ev.pause 1, Ev.rd SMBHSTSTS (oracle SMBHSTSTS (s.counts SMBHSTSTS) % 256)],
      ?_, ?_, ?_, ?_⟩
    · simp only [osb4_poll, inb_p, osb4_do_pause]
      split <;> simp
    · simp [nPause]
    · intro p
      simp [wTo]
    · intro q hq
      simp only [osb4_poll, inb_p, osb4_do_pause]
      split <;> simp [hq]
  | succ r ih =>
    by_cases h : oracle SMBHSTSTS (s.counts SMBHSTSTS) % 256 % 2 = 1
    · have hstep : osb4_poll oracle (r + 1) t s =
          osb4_poll oracle r (t + 1) (inb_p oracle SMBHSTSTS (osb4_do_pause 1 s)).2 := by
        simp [osb4_poll, inb_p, osb4_do_pause, h]
      obtain ⟨δ, h1, h2, h3, h4⟩ := ih (t + 1) (inb_p oracle SMBHSTSTS (osb4_do_pause 1 s)).2
      refine ⟨[Ev.pause 1, Ev.rd SMBHSTSTS (oracle SMBHSTSTS (s.counts SMBHSTSTS) % 256)] ++ δ,
        ?_, ?_, ?_, ?_⟩
      · rw [hstep, h1]
        simp [inb_p, osb4_do_pause]
      · have h5 : nPause [Ev.pause 1,
            Ev.rd SMBHSTSTS (oracle SMBHSTSTS (s.counts SMBHSTSTS) % 256)] = 1 := by
          simp [nPause]
        rw [nPause_append, h5]
        omega
      · intro p
        rw [wTo_append, h3 p]
        simp [wTo]
      · intro q hq
        rw [hstep, h4 q hq]
        simp [inb_p, osb4_do_pause, hq]
    · refine ⟨[Ev.pause 1, Ev.rd SMBHSTSTS (oracle SMBHSTSTS (s.counts SMBHSTSTS) % 256)],
        ?_, ?_, ?_, ?_⟩
      · simp [osb4_poll, inb_p, osb4_do_pause, h]
      · simp [nPause]
      · intro p
        simp [wTo]
      · intro q hq
        simp [osb4_poll, inb_p, osb4_do_pause, h, hq]

/-- Shape of the end-of-transaction status clear: it appends only status
reads and at most one status write, no pauses, and leaves every other
read counter unchanged. -/
theorem osb4_status_clear_shape (oracle : Nat → Nat → Nat) (s : IOState) :
    ∃ δ, (osb4_status_clear oracle s).trace = s.trace ++ δ ∧
      nPause δ = 0 ∧ (∀ p, p ≠ SMBHSTSTS → wTo p δ = []) ∧
      (∀ q, q ≠ SMBHSTSTS → (osb4_status_clear oracle s).counts q = s.counts q) := by
  by_cases h : oracle SMBHSTSTS (s.counts SMBHSTSTS) % 256 = 0
  · refine ⟨[Ev.rd SMBHSTSTS 0,
      Ev.rd SMBHSTSTS (oracle SMBHSTSTS (s.counts SMBHSTSTS + 1) % 256)], ?_, ?_, ?_, ?_⟩
    · simp [osb4_status_clear, inb_p, inb, h]
    · simp [nPause]
    · intro p hp
      simp [wTo, Ne.symm hp]
    · intro q hq
      simp [osb4_status_clear, inb_p, inb, h, hq]
  · refine ⟨[Ev.rd SMBHSTSTS (oracle SMBHSTSTS (s.counts SMBHSTSTS) % 256),
      Ev.rd SMBHSTSTS (oracle SMBHSTSTS (s.counts SMBHSTSTS + 1) % 256),
      Ev.wr SMBHSTSTS (oracle SMBHSTSTS (s.counts SMBHSTSTS + 1) % 256),
      Ev.rd SMBHSTSTS (oracle SMBHSTSTS (s.counts SMBHSTSTS + 2) % 256)], ?_, ?_, ?_, ?_⟩
    · simp [osb4_status_clear, inb_p, inb, outb_p, h]
    · simp [nPause]
    · intro p hp
      simp [wTo, Ne.symm hp]
    · intro q hq
      simp [osb4_status_clear, inb_p, inb, outb_p, h, hq]

/-- The busy check passes exactly when the first status read is zero or
the re-read after the clearing write-back is zero. -/
theorem osb4_busy_check_passes (oracle : Nat → Nat → Nat) (s : IOState) :
    (osb4_busy_check oracle s).1 = true ↔
      (oracle SMBHSTSTS (s.counts SMBHSTSTS) % 256 = 0 ∨
       oracle SMBHSTSTS (s.counts SMBHSTSTS + 1) % 256 = 0) := by
  by_cases h : oracle SMBHSTSTS (s.counts SMBHSTSTS) % 256 = 0
  · simp [osb4_busy_check, inb_p, outb_p, h]
  · by_cases h2 : oracle SMBHSTSTS (s.counts SMBHSTSTS + 1) % 256 = 0 <;>
      simp [osb4_busy_check, inb_p, outb_p, h, h2]

/-- Unfolding of osb4_transaction on the armed path (busy check passed). -/
theorem osb4_transaction_armed (oracle : Nat → Nat → Nat) (s : IOState)
    (h : (osb4_busy_check oracle s).1 = true) :
    osb4_transaction oracle s =
      ((if (osb4_poll oracle MAX_TIMEOUT 0 (osb4_arm oracle s)).1 &&& 0x04 ≠ 0 then -1 else
        if (osb4_poll oracle MAX_TIMEOUT 0 (osb4_arm oracle s)).1 &&& 0x08 ≠ 0 then -1 else
        if (osb4_poll oracle MAX_TIMEOUT 0 (osb4_arm oracle s)).1 &&& 0x10 ≠ 0 then -1 else 0),
       osb4_status_clear oracle (osb4_poll oracle MAX_TIMEOUT 0 (osb4_arm oracle s)).2.2) := by
  simp [osb4_transaction, osb4_arm, h]

/-- Unfolding of osb4_transaction on the abandoned path (busy check
failed): the result is -1 and no further I/O happens. -/
theorem osb4_transaction_abandoned (oracle : Nat → Nat → Nat) (s : IOState)
    (h : (osb4_busy_check oracle s).1 = false) :
    osb4_transaction oracle s = ((-1 : Int), (osb4_busy_check oracle s).2) := by
  simp [osb4_transaction, h]

/-- Shape of one full osb4_transaction run: its events touch only the
status and command registers (at most one command-register write, the
arming write carrying the start bit 0x40), it pauses at most
MAX_TIMEOUT + 1 times, and every read counter other than those of the
status and command registers is unchanged. -/
theorem osb4_transaction_shape (oracle : Nat → Nat → Nat) (s : IOState) :
    ∃ δ, (osb4_transaction oracle s).2.trace = s.trace ++ δ ∧
      nPause δ ≤ MAX_TIMEOUT + 1 ∧
      (∀ p, p ≠ SMBHSTSTS → p ≠ SMBHSTCNT → wTo p δ = []) ∧
      wTo SMBHSTCNT δ = (if (osb4_busy_check oracle s).1 then
        [oracle SMBHSTCNT (s.counts SMBHSTCNT) % 256 ||| 0x40] else []) ∧
      (∀ q, q ≠ SMBHSTSTS → q ≠ SMBHSTCNT →
        (osb4_transaction oracle s).2.counts q = s.counts q) := by
  obtain ⟨δb, hb1, hb2, hb3, hb4⟩ := osb4_busy_check_shape oracle s
  cases hbc : (osb4_busy_check oracle s).1 with
  | false =>
    rw [osb4_transaction_abandoned oracle s hbc]
    refine ⟨δb, hb1, by omega, ?_, ?_, ?_⟩
    · intro p hp _
      exact hb3 p hp
    · rw [hb3 SMBHSTCNT (by decide)]
      simp
    · intro q hq _
      exact hb4 q hq
  | true =>
    rw [osb4_transaction_armed oracle s hbc]
    set s1 := (osb4_busy_check oracle s).2 with hs1
    set cnt := (inb oracle SMBHSTCNT s1).1 with hcnt
    set s3 := osb4_arm oracle s with hs3
    have hcv : cnt = oracle SMBHSTCNT (s.counts SMBHSTCNT) % 256 := by
      have hfst : (inb oracle SMBHSTCNT s1).1 = oracle SMBHSTCNT (s1.counts SMBHSTCNT) % 256 := rfl
      rw [hcnt, hfst, hb4 SMBHSTCNT (by decide)]
    obtain ⟨δp, hp1, hp2, hp3, hp4⟩ := osb4_poll_shape oracle MAX_TIMEOUT 0 s3
    obtain ⟨δc, hc1, hc2, hc3, hc4⟩ :=
      osb4_status_clear_shape oracle (osb4_poll oracle MAX_TIMEOUT 0 s3).2.2
    have hrd : oracle SMBHSTCNT (s1.counts SMBHSTCNT) % 256 = cnt := by
      rw [hb4 SMBHSTCNT (by decide), ← hcv]
    have hs3trace : s3.trace = s.trace ++ (δb ++ [Ev.rd SMBHSTCNT cnt, Ev.wr SMBHSTCNT (cnt ||| 0x40)]) := by
      rw [hs3]
      simp [osb4_arm, inb, inb_p, hrd, ← hs1]
      rw [hb1]
      simp
    have hs3counts : ∀ q, q ≠ SMBHSTSTS → q ≠ SMBHSTCNT → s3.counts q = s.counts q := by
      intro q hq0 hq2
      rw [hs3]
      simp [osb4_arm, inb, inb_p, hq2, ← hs1]
      exact hb4 q hq0
    refine ⟨δb ++ [Ev.rd SMBHSTCNT cnt, Ev.wr SMBHSTCNT (cnt ||| 0x40)] ++ δp ++ δc,
      ?_, ?_, ?_, ?_, ?_⟩
    · show (osb4_status_clear oracle (osb4_poll oracle MAX_TIMEOUT 0 s3).2.2).trace = _
      rw [hc1, hp1, hs3trace]
      simp
    · have h2 : nPause δb = 0 := hb2
      have h3 : nPause [Ev.rd SMBHSTCNT cnt, Ev.wr SMBHSTCNT (cnt ||| 0x40)] = 0 := by
        simp [nPause]
      rw [nPause_append, nPause_append, nPause_append, h2, h3, hc2]
      omega
    · intro p hp0 hp2
      rw [wTo_append, wTo_append, wTo_append, hb3 p hp0, hp3 p, hc3 p hp0]
      simp [wTo, Ne.symm hp2]
    · rw [wTo_append, wTo_append, wTo_append, hb3 SMBHSTCNT (by decide), hp3 SMBHSTCNT,
        hc3 SMBHSTCNT (by decide)]
      simp [wTo, hcv]
    · intro q hq0 hq2
      show (osb4_status_clear oracle (osb4_poll oracle MAX_TIMEOUT 0 s3).2.2).counts q = _
      rw [hc4 q hq0, hp4 q hq0, hs3counts q hq0 hq2]

/- ---------------- The stuck-busy scenario ------------------------------ -/

/-- Hardware that answers 0 on the very first status read (so the busy
check passes) and afterwards always reports the in-progress bit (bit 0)
and nothing else; every other port reads 0. -/
def busyStuckOracle : Nat → Nat → Nat := fun p i =>
  if p = 0 then (if i = 0 then 0 else 1) else 0

/-- The all-zero initial I/O state. -/
def stuck0 : IOState := ⟨fun _ => 0, []⟩

/-- Under the stuck-busy oracle the polling loop runs all its iterations:
the final status byte is 1, the C timeout variable ends at
timeout + rem + 1, and one pause is recorded per iteration. -/
theorem osb4_poll_stuck (rem t : Nat) (s : IOState) (h : 1 ≤ s.counts SMBHSTSTS) :
    (osb4_poll busyStuckOracle rem t s).1 = 1 ∧
    (osb4_poll busyStuckOracle rem t s).2.1 = t + (rem + 1) ∧
    (osb4_poll busyStuckOracle rem t s).2.2.counts SMBHSTSTS = s.counts SMBHSTSTS + (rem + 1) ∧
    nPause (osb4_poll busyStuckOracle rem t s).2.2.trace = nPause s.trace + (rem + 1) := by
  induction rem generalizing t s with
  | zero =>
    have hne : ¬ s.counts 0 = 0 := by
      have h0 : s.counts SMBHSTSTS ≠ 0 := by omega
      simpa [SMBHSTSTS] using h0
    have hv : busyStuckOracle SMBHSTSTS (s.counts SMBHSTSTS) = 1 := by
      simp [busyStuckOracle, SMBHSTSTS, hne]
    refine ⟨?_, ?_, ?_, ?_⟩ <;> simp [osb4_poll, inb_p, osb4_do_pause, hv, nPause]
  | succ r ih =>
    have hne : ¬ s.counts 0 = 0 := by
      have h0 : s.counts SMBHSTSTS ≠ 0 := by omega
      simpa [SMBHSTSTS] using h0
    have hv : busyStuckOracle SMBHSTSTS (s.counts SMBHSTSTS) = 1 := by
      simp [busyStuckOracle, SMBHSTSTS, hne]
    have hstep : osb4_poll busyStuckOracle (r + 1) t s =
        osb4_poll busyStuckOracle r (t + 1)
          (inb_p busyStuckOracle SMBHSTSTS (osb4_do_pause 1 s)).2 := by
      simp [osb4_poll, inb_p, osb4_do_pause, hv]
    have hc2 : (inb_p busyStuckOracle SMBHSTSTS (osb4_do_pause 1 s)).2.counts SMBHSTSTS
        = s.counts SMBHSTSTS + 1 := by
      simp [inb_p, osb4_do_pause]
    have hn2 : nPause (inb_p busyStuckOracle SMBHSTSTS (osb4_do_pause 1 s)).2.trace
        = nPause s.trace + 1 := by
      simp [inb_p, osb4_do_pause, nPause]
    obtain ⟨i1, i2, i3, i4⟩ := ih (t + 1)
      (inb_p busyStuckOracle SMBHSTSTS (osb4_do_pause 1 s)).2 (by rw [hc2]; omega)
    refine ⟨?_, ?_, ?_, ?_⟩
    · rw [hstep]
      exact i1
    · rw [hstep, i2]
      omega
    · rw [hstep, i3, hc2]
      omega
    · rw [hstep, i4, hn2]
      omega

set_option maxRecDepth 2000 in
/-- Claim C1: with hardware that keeps the in-progress bit set forever
and asserts no error bit, the polling loop of osb4_transaction reaches
the timeout ceiling (final timeout 501 ≥ MAX_TIMEOUT, in-progress bit
still set, error bits 4, 3, 2 all clear), yet osb4_transaction returns 0
(success) instead of a Timeout failure: the `result = -1` under the
`timeout >= MAX_TIMEOUT` check of the source sits inside an
`#ifdef DEBUG` block, contradicting the adjacent comment
`If the SMBus is still busy, we give up`. -/
theorem osb4_transaction_timeout_returns_success :
    (osb4_poll busyStuckOracle MAX_TIMEOUT 0 (osb4_arm busyStuckOracle stuck0)).1 &&& 0x01 ≠ 0 ∧
    (osb4_poll busyStuckOracle MAX_TIMEOUT 0 (osb4_arm busyStuckOracle stuck0)).2.1 ≥ MAX_TIMEOUT ∧
    (osb4_poll busyStuckOracle MAX_TIMEOUT 0 (osb4_arm busyStuckOracle stuck0)).1 &&& 0x10 = 0 ∧
    (osb4_poll busyStuckOracle MAX_TIMEOUT 0 (osb4_arm busyStuckOracle stuck0)).1 &&& 0x08 = 0 ∧
    (osb4_poll busyStuckOracle MAX_TIMEOUT 0 (osb4_arm busyStuckOracle stuck0)).1 &&& 0x04 = 0 ∧
    (osb4_transaction busyStuckOracle stuck0).1 = 0 := by
  have hcnt : (osb4_arm busyStuckOracle stuck0).counts SMBHSTSTS = 1 := by decide
  obtain ⟨p1, p2, p3, p4⟩ := osb4_poll_stuck MAX_TIMEOUT 0 (osb4_arm busyStuckOracle stuck0) (by rw [hcnt])
  refine ⟨?_, ?_, ?_, ?_, ?_, ?_⟩
  · rw [p1]
    decide
  · rw [p2]
    omega
  · rw [p1]
    decide
  · rw [p1]
    decide
  · rw [p1]
    decide
  · rw [osb4_transaction_armed busyStuckOracle stuck0 (by decide)]
    show (if (osb4_poll busyStuckOracle MAX_TIMEOUT 0 (osb4_arm busyStuckOracle stuck0)).1 &&& 0x04 ≠ 0 then (-1 : Int)
      else if (osb4_poll busyStuckOracle MAX_TIMEOUT 0 (osb4_arm busyStuckOracle stuck0)).1 &&& 0x08 ≠ 0 then (-1 : Int)
      else if (osb4_poll busyStuckOracle MAX_TIMEOUT 0 (osb4_arm busyStuckOracle stuck0)).1 &&& 0x10 ≠ 0 then (-1 : Int)
      else 0) = 0
    rw [p1]
    decide

set_option maxRecDepth 2000 in
/-- Claim C2, counterexample: under the stuck-busy oracle the transaction
records 501 pause-then-read polling iterations, one more than the claimed
bound of 500. -/
theorem osb4_transaction_501_iterations :
    nPause (osb4_transaction busyStuckOracle stuck0).2.trace = MAX_TIMEOUT + 1 ∧
    ¬ nPause (osb4_transaction busyStuckOracle stuck0).2.trace ≤ MAX_TIMEOUT := by
  have hcnt : (osb4_arm busyStuckOracle stuck0).counts SMBHSTSTS = 1 := by decide
  obtain ⟨p1, p2, p3, p4⟩ := osb4_poll_stuck MAX_TIMEOUT 0 (osb4_arm busyStuckOracle stuck0) (by rw [hcnt])
  have h : nPause (osb4_transaction busyStuckOracle stuck0).2.trace = MAX_TIMEOUT + 1 := by
    rw [osb4_transaction_armed busyStuckOracle stuck0 (by decide)]
    show nPause (osb4_status_clear busyStuckOracle
      (osb4_poll busyStuckOracle MAX_TIMEOUT 0 (osb4_arm busyStuckOracle stuck0)).2.2).trace = MAX_TIMEOUT + 1
    obtain ⟨δc, hc1, hc2, _, _⟩ := osb4_status_clear_shape busyStuckOracle
      (osb4_poll busyStuckOracle MAX_TIMEOUT 0 (osb4_arm busyStuckOracle stuck0)).2.2
    rw [hc1, nPause_append, hc2, p4]
    have h0 : nPause (osb4_arm busyStuckOracle stuck0).trace = 0 := by decide
    rw [h0]
    omega
  refine ⟨h, ?_⟩
  rw [h]
  omega

/-- Claim C2, amended: every osb4_transaction run records at most
MAX_TIMEOUT + 1 = 501 polling iterations (pause-then-read cycles),
whatever status bytes the hardware produces. -/
theorem osb4_transaction_pause_bound (oracle : Nat → Nat → Nat) (s : IOState) :
    nPause (osb4_transaction oracle s).2.trace ≤ nPause s.trace + (MAX_TIMEOUT + 1) := by
  obtain ⟨δ, h1, h2, _, _, _⟩ := osb4_transaction_shape oracle s
  rw [h1, nPause_append]
  omega

/- ---------------- Busy check and status decode claims ------------------ -/

/-- Claim C4: in the busy check of osb4_transaction, an initial status
read of 0 triggers no clear write (the trace is a single read); a
non-zero read triggers exactly one write-back of the same value followed
by one re-read; and if that re-read is still non-zero, osb4_transaction
returns -1 (UnrecoverableBusy) without ever writing the command register,
so in particular without writing the start bit. -/
theorem osb4_busy_check_behaviour (oracle : Nat → Nat → Nat) (counts : Nat → Nat) :
    (oracle SMBHSTSTS (counts SMBHSTSTS) % 256 = 0 →
      (osb4_busy_check oracle ⟨counts, []⟩).1 = true ∧
      (osb4_busy_check oracle ⟨counts, []⟩).2.trace =
        [Ev.rd SMBHSTSTS (oracle SMBHSTSTS (counts SMBHSTSTS) % 256)]) ∧
    (oracle SMBHSTSTS (counts SMBHSTSTS) % 256 ≠ 0 →
      (osb4_busy_check oracle ⟨counts, []⟩).2.trace =
        [Ev.rd SMBHSTSTS (oracle SMBHSTSTS (counts SMBHSTSTS) % 256),
         Ev.wr SMBHSTSTS (oracle SMBHSTSTS (counts SMBHSTSTS) % 256),
         Ev.rd SMBHSTSTS (oracle SMBHSTSTS (counts SMBHSTSTS + 1) % 256)]) ∧
    (oracle SMBHSTSTS (counts SMBHSTSTS) % 256 ≠ 0 →
     oracle SMBHSTSTS (counts SMBHSTSTS + 1) % 256 ≠ 0 →
      (osb4_transaction oracle ⟨counts, []⟩).1 = -1 ∧
      wTo SMBHSTCNT (osb4_transaction oracle ⟨counts, []⟩).2.trace = []) := by
  refine ⟨?_, ?_, ?_⟩
  · intro h
    constructor
    · simp [osb4_busy_check, inb_p, h]
    · simp [osb4_busy_check, inb_p, h]
  · intro h
    by_cases h2 : oracle SMBHSTSTS (counts SMBHSTSTS + 1) % 256 = 0 <;>
      simp [osb4_busy_check, inb_p, outb_p, h, h2]
  · intro h h2
    have hb : (osb4_busy_check oracle ⟨counts, []⟩).1 = false := by
      rcases hfb : (osb4_busy_check oracle ⟨counts, []⟩).1 with _ | _
      · rfl
      · rcases (osb4_busy_check_passes oracle ⟨counts, []⟩).mp hfb with hx | hx
        · exact absurd hx h
        · exact absurd hx h2
    rw [osb4_transaction_abandoned oracle ⟨counts, []⟩ hb]
    refine ⟨rfl, ?_⟩
    have htr : (osb4_busy_check oracle ⟨counts, []⟩).2.trace =
        [Ev.rd SMBHSTSTS (oracle SMBHSTSTS (counts SMBHSTSTS) % 256),
         Ev.wr SMBHSTSTS (oracle SMBHSTSTS (counts SMBHSTSTS) % 256),
         Ev.rd SMBHSTSTS (oracle SMBHSTSTS (counts SMBHSTSTS + 1) % 256)] := by
      simp [osb4_busy_check, inb_p, outb_p, h, h2]
    rw [htr]
    simp [wTo, SMBHSTSTS, SMBHSTCNT]

/-- Witness for claim C4: a clean bus (all reads 0) yields a passing busy
check whose trace is one read and no write; a bus stuck at status 5
yields the read, one write-back of 5, one re-read, then result -1 with no
command-register write at all. -/
theorem osb4_busy_check_behaviour_witness :
    ((osb4_busy_check (fun _ _ => 0) ⟨fun _ => 0, []⟩).1 = true ∧
     (osb4_busy_check (fun _ _ => 0) ⟨fun _ => 0, []⟩).2.trace = [Ev.rd SMBHSTSTS 0]) ∧
    (osb4_busy_check (fun _ _ => 5) ⟨fun _ => 0, []⟩).2.trace =
      [Ev.rd SMBHSTSTS 5, Ev.wr SMBHSTSTS 5, Ev.rd SMBHSTSTS 5] ∧
    (osb4_transaction (fun _ _ => 5) ⟨fun _ => 0, []⟩).1 = -1 ∧
    wTo SMBHSTCNT (osb4_transaction (fun _ _ => 5) ⟨fun _ => 0, []⟩).2.trace = [] := by
  refine ⟨(osb4_busy_check_behaviour (fun _ _ => 0) (fun _ => 0)).1 (by decide), ?_, ?_, ?_⟩
  · exact (osb4_busy_check_behaviour (fun _ _ => 5) (fun _ => 0)).2.1 (by decide)
  · exact ((osb4_busy_check_behaviour (fun _ _ => 5) (fun _ => 0)).2.2 (by decide) (by decide)).1
  · exact ((osb4_busy_check_behaviour (fun _ _ => 5) (fun _ => 0)).2.2 (by decide) (by decide)).2

/-- Claim C5: for the status byte held at the end of polling (the value
returned by osb4_poll), a set device-error bit 4, bus-collision bit 3 or
no-response bit 2 makes osb4_transaction return -1; if none of the three
is set and the in-progress bit cleared before the ceiling was reached,
it returns 0. -/
theorem osb4_status_decode (oracle : Nat → Nat → Nat) (s : IOState)
    (hb : (osb4_busy_check oracle s).1 = true) :
    ((osb4_poll oracle MAX_TIMEOUT 0 (osb4_arm oracle s)).1 &&& 0x10 ≠ 0 ∨
     (osb4_poll oracle MAX_TIMEOUT 0 (osb4_arm oracle s)).1 &&& 0x08 ≠ 0 ∨
     (osb4_poll oracle MAX_TIMEOUT 0 (osb4_arm oracle s)).1 &&& 0x04 ≠ 0 →
       (osb4_transaction oracle s).1 = -1) ∧
    ((osb4_poll oracle MAX_TIMEOUT 0 (osb4_arm oracle s)).1 &&& 0x10 = 0 →
     (osb4_poll oracle MAX_TIMEOUT 0 (osb4_arm oracle s)).1 &&& 0x08 = 0 →
     (osb4_poll oracle MAX_TIMEOUT 0 (osb4_arm oracle s)).1 &&& 0x04 = 0 →
     (osb4_poll oracle MAX_TIMEOUT 0 (osb4_arm oracle s)).1 &&& 0x01 = 0 →
     (osb4_poll oracle MAX_TIMEOUT 0 (osb4_arm oracle s)).2.1 < MAX_TIMEOUT →
       (osb4_transaction oracle s).1 = 0) := by
  rw [osb4_transaction_armed oracle s hb]
  constructor
  · intro h
    by_cases c4 : (osb4_poll oracle MAX_TIMEOUT 0 (osb4_arm oracle s)).1 &&& 0x04 ≠ 0
    · simp [c4]
    · by_cases c8 : (osb4_poll oracle MAX_TIMEOUT 0 (osb4_arm oracle s)).1 &&& 0x08 ≠ 0
      · simp [c4, c8]
      · by_cases c10 : (osb4_poll oracle MAX_TIMEOUT 0 (osb4_arm oracle s)).1 &&& 0x10 ≠ 0
        · simp [c4, c8, c10]
        · exfalso
          rcases h with h | h | h
          · exact c10 h
          · exact c8 h
          · exact c4 h
  · intro h10 h8 h4 _ _
    simp [h10, h8, h4]

/-- Witness for claim C5: hardware whose status byte settles at 0x10
(device error, in-progress clear) makes the transaction fail with -1,
and hardware whose status byte settles at 0 makes it succeed with 0. -/
theorem osb4_status_decode_witness :
    (osb4_transaction (fun p i => if p = 0 then (if i = 0 then 0 else 0x10) else 0)
      ⟨fun _ => 0, []⟩).1 = -1 ∧
    (osb4_transaction (fun _ _ => 0) ⟨fun _ => 0, []⟩).1 = 0 := by
  constructor
  · exact (osb4_status_decode (fun p i => if p = 0 then (if i = 0 then 0 else 0x10) else 0)
      ⟨fun _ => 0, []⟩ (by decide)).1 (Or.inl (by decide))
  · exact (osb4_status_decode (fun _ _ => 0) ⟨fun _ => 0, []⟩ (by decide)).2
      (by decide) (by decide) (by decide) (by decide) (by decide)

/- ---------------- Block loop and adapter shape lemmas ------------------ -/

/-- The block-data write loop appends exactly one block-data-port write
per payload byte, in order, and changes nothing else. -/
theorem osb4_write_block_spec (blk : Nat → Nat) (i n : Nat) (s : IOState) :
    osb4_write_block blk i n s =
      ⟨s.counts, s.trace ++ (List.range n).map (fun k => Ev.wr SMBBLKDAT (blk (i + k)))⟩ := by
  induction n generalizing i s with
  | zero =>
    simp [osb4_write_block]
  | succ n ih =>
    show osb4_write_block blk (i + 1) n (outb_p (blk i) SMBBLKDAT s) = _
    rw [ih]
    simp [outb_p, List.range_succ_eq_map, Function.comp, Nat.add_assoc, Nat.add_comm,
      Nat.add_left_comm]

/-- The block-data read loop: entry j of the resulting buffer, for
i ≤ j < i + n, is the byte of the (j - i)-th block-data-port read; every
other entry is untouched.  The loop performs n reads of the block-data
port and appends only read events. -/
theorem osb4_read_block_spec (oracle : Nat → Nat → Nat) (i n : Nat) (blk : Nat → Nat)
    (s : IOState) :
    (∀ j, (osb4_read_block oracle i n blk s).1 j =
      if i ≤ j ∧ j < i + n then oracle SMBBLKDAT (s.counts SMBBLKDAT + (j - i)) % 256
      else blk j) ∧
    (osb4_read_block oracle i n blk s).2.counts SMBBLKDAT = s.counts SMBBLKDAT + n ∧
    (∀ q, q ≠ SMBBLKDAT → (osb4_read_block oracle i n blk s).2.counts q = s.counts q) ∧
    ∃ δ, (osb4_read_block oracle i n blk s).2.trace = s.trace ++ δ ∧
      (∀ p, wTo p δ = []) ∧ nPause δ = 0 := by
  induction n generalizing i blk s with
  | zero =>
    refine ⟨?_, ?_, ?_, ⟨[], ?_, fun p => rfl, rfl⟩⟩
    · intro j
      rw [if_neg (by omega)]
      rfl
    · simp [osb4_read_block]
    · intro q _
      simp [osb4_read_block]
    · simp [osb4_read_block]
  | succ n ih =>
    have hstep : osb4_read_block oracle i (n + 1) blk s =
        osb4_read_block oracle (i + 1) n
          (fun j => if j = i then oracle SMBBLKDAT (s.counts SMBBLKDAT) % 256 else blk j)
          (inb_p oracle SMBBLKDAT s).2 := by
      simp [osb4_read_block, inb_p]
    obtain ⟨ih1, ih2, ih3, ih4⟩ := ih (i + 1)
      (fun j => if j = i then oracle SMBBLKDAT (s.counts SMBBLKDAT) % 256 else blk j)
      (inb_p oracle SMBBLKDAT s).2
    have hc : (inb_p oracle SMBBLKDAT s).2.counts SMBBLKDAT = s.counts SMBBLKDAT + 1 := by
      simp
    refine ⟨?_, ?_, ?_, ?_⟩
    · intro j
      rw [hstep, ih1 j, hc]
      by_cases h1 : i + 1 ≤ j ∧ j < i + 1 + n
      · rw [if_pos h1, if_pos (by omega)]
        have he : s.counts SMBBLKDAT + 1 + (j - (i + 1)) = s.counts SMBBLKDAT + (j - i) := by
          omega
        rw [he]
      · rw [if_neg h1]
        by_cases h2 : j = i
        · subst h2
          rw [if_pos rfl, if_pos (by omega)]
          simp
        · rw [if_neg h2, if_neg (by omega)]
    · rw [hstep, ih2, hc]
      omega
    · intro q hq
      rw [hstep, ih3 q hq]
      simp [hq]
    · obtain ⟨δ, hδ1, hδ2, hδ3⟩ := ih4
      refine ⟨Ev.rd SMBBLKDAT (oracle SMBBLKDAT (s.counts SMBBLKDAT) % 256) :: δ, ?_, ?_, ?_⟩
      · rw [hstep, hδ1]
        simp
      · intro p
        have hw := hδ2 p
        simp [wTo] at hw ⊢
        exact hw
      · have hn := hδ3
        simp [nPause] at hn ⊢
        exact hn

/-- Shape of osb4_access_run: the first event after the register loads is
the control-register write carrying the size-class bits, the only other
command-register write is the arming write (present exactly when the busy
check passes), no register other than status and command is ever written,
and the result is 0 when the transaction engine reported 0 and -1 when it
did not. -/
theorem osb4_access_run_shape (oracle : Nat → Nat → Nat) (read_write size2 : Nat)
    (data : SMBusData) (s1 : IOState) :
    ∃ δ,
      (osb4_access_run oracle read_write size2 data s1).2.2.trace =
        s1.trace ++ (Ev.wr SMBHSTCNT ((size2 &&& 0x1C) + (ENABLE_INT9 &&& 1)) :: δ) ∧
      (∀ p, p ≠ SMBHSTSTS → p ≠ SMBHSTCNT → wTo p δ = []) ∧
      wTo SMBHSTCNT δ =
        (if (osb4_busy_check oracle
              (outb_p ((size2 &&& 0x1C) + (ENABLE_INT9 &&& 1)) SMBHSTCNT s1)).1 then
          [oracle SMBHSTCNT (s1.counts SMBHSTCNT) % 256 ||| 0x40] else []) ∧
      ((osb4_transaction oracle
          (outb_p ((size2 &&& 0x1C) + (ENABLE_INT9 &&& 1)) SMBHSTCNT s1)).1 = 0 →
        (osb4_access_run oracle read_write size2 data s1).1 = 0) ∧
      ((osb4_transaction oracle
          (outb_p ((size2 &&& 0x1C) + (ENABLE_INT9 &&& 1)) SMBHSTCNT s1)).1 ≠ 0 →
        (osb4_access_run oracle read_write size2 data s1).1 = -1) := by
  obtain ⟨δt, ht1, ht2, ht3, ht4, ht5⟩ := osb4_transaction_shape oracle
    (outb_p ((size2 &&& 0x1C) + (ENABLE_INT9 &&& 1)) SMBHSTCNT s1)
  rw [outb_p_trace] at ht1
  rw [outb_p_counts] at ht4
  by_cases hres : (osb4_transaction oracle
      (outb_p ((size2 &&& 0x1C) + (ENABLE_INT9 &&& 1)) SMBHSTCNT s1)).1 ≠ 0
  · have hrun : osb4_access_run oracle read_write size2 data s1 =
        ((-1 : Int), data, (osb4_transaction oracle
          (outb_p ((size2 &&& 0x1C) + (ENABLE_INT9 &&& 1)) SMBHSTCNT s1)).2) := by
      unfold osb4_access_run
      rw [if_pos hres]
    refine ⟨δt, ?_, ht3, ht4, ?_, ?_⟩
    · rw [hrun, ht1]
      simp
    · intro h0
      exact absurd h0 hres
    · intro _
      rw [hrun]
  · by_cases hq : read_write = I2C_SMBUS_WRITE ∨ size2 = OSB4_QUICK
    · have hrun : osb4_access_run oracle read_write size2 data s1 =
          (0, data, (osb4_transaction oracle
            (outb_p ((size2 &&& 0x1C) + (ENABLE_INT9 &&& 1)) SMBHSTCNT s1)).2) := by
        unfold osb4_access_run
        rw [if_neg hres, if_pos hq]
      refine ⟨δt, ?_, ht3, ht4, ?_, ?_⟩
      · rw [hrun, ht1]
        simp
      · intro _
        rw [hrun]
      · intro hne
        exact absurd hne hres
    · by_cases h4 : size2 = OSB4_BYTE
      · have hrun : osb4_access_run oracle read_write size2 data s1 =
            (0, { data with byte := (inb_p oracle SMBHSTDAT0 (osb4_transaction oracle
                (outb_p ((size2 &&& 0x1C) + (ENABLE_INT9 &&& 1)) SMBHSTCNT s1)).2).1 },
              (inb_p oracle SMBHSTDAT0 (osb4_transaction oracle
                (outb_p ((size2 &&& 0x1C) + (ENABLE_INT9 &&& 1)) SMBHSTCNT s1)).2).2) := by
          unfold osb4_access_run
          rw [if_neg hres, if_neg hq, if_pos h4]
        refine ⟨δt ++ [Ev.rd SMBHSTDAT0 ((inb_p oracle SMBHSTDAT0 (osb4_transaction oracle
            (outb_p ((size2 &&& 0x1C) + (ENABLE_INT9 &&& 1)) SMBHSTCNT s1)).2).1)],
            ?_, ?_, ?_, ?_, ?_⟩
        · rw [hrun]
          show (inb_p oracle SMBHSTDAT0 _).2.trace = _
          rw [inb_p_trace, ht1]
          simp
        · intro p hp0 hp2
          rw [wTo_append, ht3 p hp0 hp2]
          simp [wTo]
        · rw [wTo_append, ht4]
          simp [wTo]
        · intro _
          rw [hrun]
        · intro hne
          exact absurd hne hres
      · by_cases h8 : size2 = OSB4_BYTE_DATA
        · have hrun : osb4_access_run oracle read_write size2 data s1 =
              (0, { data with byte := (inb_p oracle SMBHSTDAT0 (osb4_transaction oracle
                  (outb_p ((size2 &&& 0x1C) + (ENABLE_INT9 &&& 1)) SMBHSTCNT s1)).2).1 },
                (inb_p oracle SMBHSTDAT0 (osb4_transaction oracle
                  (outb_p ((size2 &&& 0x1C) + (ENABLE_INT9 &&& 1)) SMBHSTCNT s1)).2).2) := by
            unfold osb4_access_run
            rw [if_neg hres, if_neg hq, if_neg h4, if_pos h8]
          refine ⟨δt ++ [Ev.rd SMBHSTDAT0 ((inb_p oracle SMBHSTDAT0 (osb4_transaction oracle
              (outb_p ((size2 &&& 0x1C) + (ENABLE_INT9 &&& 1)) SMBHSTCNT s1)).2).1)],
              ?_, ?_, ?_, ?_, ?_⟩
          · rw [hrun]
            show (inb_p oracle SMBHSTDAT0 _).2.trace = _
            rw [inb_p_trace, ht1]
            simp
          · intro p hp0 hp2
            rw [wTo_append, ht3 p hp0 hp2]
            simp [wTo]
          · rw [wTo_append, ht4]
            simp [wTo]
          · intro _
            rw [hrun]
          · intro hne
            exact absurd hne hres
        · by_cases hw : size2 = OSB4_WORD_DATA
          · have hrun : osb4_access_run oracle read_write size2 data s1 =
                (0, { data with word := (inb_p oracle SMBHSTDAT0 (osb4_transaction oracle
                    (outb_p ((size2 &&& 0x1C) + (ENABLE_INT9 &&& 1)) SMBHSTCNT s1)).2).1 +
                    ((inb_p oracle SMBHSTDAT1 (inb_p oracle SMBHSTDAT0 (osb4_transaction oracle
                      (outb_p ((size2 &&& 0x1C) + (ENABLE_INT9 &&& 1)) SMBHSTCNT s1)).2).2).1 <<< 8) },
                  (inb_p oracle SMBHSTDAT1 (inb_p oracle SMBHSTDAT0 (osb4_transaction oracle
                    (outb_p ((size2 &&& 0x1C) + (ENABLE_INT9 &&& 1)) SMBHSTCNT s1)).2).2).2) := by
              unfold osb4_access_run
              rw [if_neg hres, if_neg hq, if_neg h4, if_neg h8, if_pos hw]
            refine ⟨δt ++ [Ev.rd SMBHSTDAT0 ((inb_p oracle SMBHSTDAT0 (osb4_transaction oracle
                (outb_p ((size2 &&& 0x1C) + (ENABLE_INT9 &&& 1)) SMBHSTCNT s1)).2).1),
                Ev.rd SMBHSTDAT1 ((inb_p oracle SMBHSTDAT1 (inb_p oracle SMBHSTDAT0
                  (osb4_transaction oracle (outb_p ((size2 &&& 0x1C) + (ENABLE_INT9 &&& 1))
                    SMBHSTCNT s1)).2).2).1)],
                ?_, ?_, ?_, ?_, ?_⟩
            · rw [hrun]
              show (inb_p oracle SMBHSTDAT1 _).2.trace = _
              rw [inb_p_trace]
              show (inb_p oracle SMBHSTDAT0 _).2.trace ++ _ = _
              rw [inb_p_trace, ht1]
              simp
            · intro p hp0 hp2
              rw [wTo_append, ht3 p hp0 hp2]
              simp [wTo]
            · rw [wTo_append, ht4]
              simp [wTo]
            · intro _
              rw [hrun]
            · intro hne
              exact absurd hne hres
          · by_cases hbl : size2 = OSB4_BLOCK_DATA
            · obtain ⟨_, _, _, δr, hr1, hr2, _⟩ := osb4_read_block_spec oracle 1
                ((fun j => if j = 0 then (inb_p oracle SMBHSTDAT0 (osb4_transaction oracle
                  (outb_p ((size2 &&& 0x1C) + (ENABLE_INT9 &&& 1)) SMBHSTCNT s1)).2).1
                  else data.block j) 0)
                (fun j => if j = 0 then (inb_p oracle SMBHSTDAT0 (osb4_transaction oracle
                  (outb_p ((size2 &&& 0x1C) + (ENABLE_INT9 &&& 1)) SMBHSTCNT s1)).2).1
                  else data.block j)
                (inb_p oracle SMBHSTCNT (inb_p oracle SMBHSTDAT0 (osb4_transaction oracle
                  (outb_p ((size2 &&& 0x1C) + (ENABLE_INT9 &&& 1)) SMBHSTCNT s1)).2).2).2
              have hrun : osb4_access_run oracle read_write size2 data s1 =
                  ((0 : Int), { data with block := (osb4_read_block oracle 1
                      ((fun j => if j = 0 then (inb_p oracle SMBHSTDAT0 (osb4_transaction oracle
                        (outb_p ((size2 &&& 0x1C) + (ENABLE_INT9 &&& 1)) SMBHSTCNT s1)).2).1
                        else data.block j) 0)
                      (fun j => if j = 0 then (inb_p oracle SMBHSTDAT0 (osb4_transaction oracle
                        (outb_p ((size2 &&& 0x1C) + (ENABLE_INT9 &&& 1)) SMBHSTCNT s1)).2).1
                        else data.block j)
                      (inb_p oracle SMBHSTCNT (inb_p oracle SMBHSTDAT0 (osb4_transaction oracle
                        (outb_p ((size2 &&& 0x1C) + (ENABLE_INT9 &&& 1)) SMBHSTCNT s1)).2).2).2).1 },
                    (osb4_read_block oracle 1
                      ((fun j => if j = 0 then (inb_p oracle SMBHSTDAT0 (osb4_transaction oracle
                        (outb_p ((size2 &&& 0x1C) + (ENABLE_INT9 &&& 1)) SMBHSTCNT s1)).2).1
                        else data.block j) 0)
                      (fun j => if j = 0 then (inb_p oracle SMBHSTDAT0 (osb4_transaction oracle
                        (outb_p ((size2 &&& 0x1C) + (ENABLE_INT9 &&& 1)) SMBHSTCNT s1)).2).1
                        else data.block j)
                      (inb_p oracle SMBHSTCNT (inb_p oracle SMBHSTDAT0 (osb4_transaction oracle
                        (outb_p ((size2 &&& 0x1C) + (ENABLE_INT9 &&& 1)) SMBHSTCNT s1)).2).2).2).2) := by
                unfold osb4_access_run
                rw [if_neg hres, if_neg hq, if_neg h4, if_neg h8, if_neg hw, if_pos hbl]
              refine ⟨δt ++ ([Ev.rd SMBHSTDAT0 ((inb_p oracle SMBHSTDAT0 (osb4_transaction oracle
                  (outb_p ((size2 &&& 0x1C) + (ENABLE_INT9 &&& 1)) SMBHSTCNT s1)).2).1),
                  Ev.rd SMBHSTCNT ((inb_p oracle SMBHSTCNT (inb_p oracle SMBHSTDAT0
                    (osb4_transaction oracle (outb_p ((size2 &&& 0x1C) + (ENABLE_INT9 &&& 1))
                      SMBHSTCNT s1)).2).2).1)] ++ δr),
                  ?_, ?_, ?_, ?_, ?_⟩
              · rw [hrun]
                show (osb4_read_block oracle 1 _ _ _).2.trace = _
                rw [hr1]
                show (inb_p oracle SMBHSTCNT _).2.trace ++ _ = _
                rw [inb_p_trace]
                show (inb_p oracle SMBHSTDAT0 _).2.trace ++ _ ++ _ = _
                rw [inb_p_trace, ht1]
                simp
              · intro p hp0 hp2
                rw [wTo_append, wTo_append, ht3 p hp0 hp2, hr2 p]
                simp [wTo, Ne.symm hp2]
              · rw [wTo_append, wTo_append, ht4, hr2 SMBHSTCNT]
                simp [wTo]
              · intro _
                rw [hrun]
              · intro hne
                exact absurd hne hres
            · have hrun : osb4_access_run oracle read_write size2 data s1 =
                  (0, data, (osb4_transaction oracle
                    (outb_p ((size2 &&& 0x1C) + (ENABLE_INT9 &&& 1)) SMBHSTCNT s1)).2) := by
                unfold osb4_access_run
                rw [if_neg hres, if_neg hq, if_neg h4, if_neg h8, if_neg hw, if_neg hbl]
              refine ⟨δt, ?_, ht3, ht4, ?_, ?_⟩
              · rw [hrun, ht1]
                simp
              · intro _
                rw [hrun]
              · intro hne
                exact absurd hne hres

@[simp] theorem wTo_cons_rd (p q v : Nat) (l : List Ev) :
    wTo p (Ev.rd q v :: l) = wTo p l := by
  simp [wTo]

@[simp] theorem wTo_cons_pause (p a : Nat) (l : List Ev) :
    wTo p (Ev.pause a :: l) = wTo p l := by
  simp [wTo]

@[simp] theorem wTo_cons_wr_same (p v : Nat) (l : List Ev) :
    wTo p (Ev.wr p v :: l) = v :: wTo p l := by
  simp [wTo]

theorem wTo_cons_wr_ne (p q v : Nat) (l : List Ev) (h : q ≠ p) :
    wTo p (Ev.wr q v :: l) = wTo p l := by
  simp [wTo, h]

theorem wTo_map_wr_same (p : Nat) (f : Nat → Nat) (l : List Nat) :
    wTo p (l.map fun k => Ev.wr p (f k)) = l.map f := by
  induction l with
  | nil => rfl
  | cons a l ih =>
    simp [ih]

theorem wTo_map_wr_ne (p q : Nat) (f : Nat → Nat) (l : List Nat) (h : q ≠ p) :
    wTo p (l.map fun k => Ev.wr q (f k)) = [] := by
  induction l with
  | nil => rfl
  | cons a l ih =>
    rw [List.map_cons, wTo_cons_wr_ne p q _ _ h, ih]

/-- osb4_access_run never writes any register other than the status and
command registers: the values written to any other port are exactly those
already written before it ran. -/
theorem osb4_access_run_wTo (oracle : Nat → Nat → Nat) (read_write size2 : Nat)
    (data : SMBusData) (s1 : IOState) (p : Nat)
    (hp0 : p ≠ SMBHSTSTS) (hp2 : p ≠ SMBHSTCNT) :
    wTo p (osb4_access_run oracle read_write size2 data s1).2.2.trace = wTo p s1.trace := by
  obtain ⟨δ, h1, h2, _, _, _⟩ := osb4_access_run_shape oracle read_write size2 data s1
  rw [h1, wTo_append, wTo_cons_wr_ne p SMBHSTCNT _ _ (Ne.symm hp2), h2 p hp0 hp2]
  simp

/-- The length clamp of the block-data write path equals min with 32 on
the natural number actually stored in the length byte. -/
theorem osb4_len_clamp (n : Nat) :
    (if (if (n : Int) < 0 then 0 else (n : Int)) > 32 then 32
     else (if (n : Int) < 0 then 0 else (n : Int))).toNat = min n 32 := by
  have h0 : ¬ ((n : Int) < 0) := not_lt.mpr (Int.natCast_nonneg n)
  rw [if_neg h0]
  by_cases h : (n : Int) > 32
  · rw [if_pos h]
    have hn : 32 < n := by exact_mod_cast h
    have : min n 32 = 32 := by omega
    rw [this]
    rfl
  · rw [if_neg h]
    have hn : n ≤ 32 := by exact_mod_cast not_lt.mp h
    have : min n 32 = n := by omega
    rw [this, Int.toNat_natCast]

/-- The OSB4 size-class code that osb4_access selects for each handled
generic size (the C code overwrites its size variable with it). -/
def osb4_size_code (size : Nat) : Nat :=
  if size = I2C_SMBUS_QUICK then OSB4_QUICK
  else if size = I2C_SMBUS_BYTE then OSB4_BYTE
  else if size = I2C_SMBUS_BYTE_DATA then OSB4_BYTE_DATA
  else if size = I2C_SMBUS_WORD_DATA then OSB4_WORD_DATA
  else if size = I2C_SMBUS_BLOCK_DATA then OSB4_BLOCK_DATA
  else size

/- ---------------- Protocol adapter claims ------------------------------ -/

/-- Claim C6: for quick, byte, byte-data and word-data requests the byte
written to the address register SMBHSTADD is exactly
((addr &&& 0x7f) <<< 1) ||| (read_write &&& 1), and it is the only write
to that register in the whole access. -/
theorem osb4_access_address_byte (oracle : Nat → Nat → Nat) (counts : Nat → Nat)
    (addr read_write command size : Nat) (data : SMBusData)
    (hs : size = I2C_SMBUS_QUICK ∨ size = I2C_SMBUS_BYTE ∨ size = I2C_SMBUS_BYTE_DATA ∨
      size = I2C_SMBUS_WORD_DATA) :
    wTo SMBHSTADD
      (osb4_access oracle addr read_write command size data ⟨counts, []⟩).2.2.trace =
      [((addr &&& 0x7f) <<< 1) ||| (read_write &&& 0x01)] := by
  rcases hs with h | h | h | h <;> subst h
  · have hacc : osb4_access oracle addr read_write command I2C_SMBUS_QUICK data ⟨counts, []⟩ =
        osb4_access_run oracle read_write OSB4_QUICK data
          (outb_p (((addr &&& 0x7f) <<< 1) ||| (read_write &&& 0x01)) SMBHSTADD
            ⟨counts, []⟩) := by
      simp [osb4_access, osb4_access_regs, I2C_SMBUS_QUICK, I2C_SMBUS_PROC_CALL]
    rw [hacc, osb4_access_run_wTo oracle read_write OSB4_QUICK data _ SMBHSTADD
      (by decide) (by decide)]
    simp [wTo]
  · by_cases hwr : read_write = I2C_SMBUS_WRITE
    · have hacc : osb4_access oracle addr read_write command I2C_SMBUS_BYTE data ⟨counts, []⟩ =
          osb4_access_run oracle read_write OSB4_BYTE data
            (outb_p command SMBHSTCMD
              (outb_p (((addr &&& 0x7f) <<< 1) ||| (read_write &&& 0x01)) SMBHSTADD
                ⟨counts, []⟩)) := by
        simp [osb4_access, osb4_access_regs, I2C_SMBUS_BYTE, I2C_SMBUS_PROC_CALL,
          I2C_SMBUS_QUICK, hwr]
      rw [hacc, osb4_access_run_wTo oracle read_write OSB4_BYTE data _ SMBHSTADD
        (by decide) (by decide)]
      simp [wTo, SMBHSTADD, SMBHSTCMD]
    · have hacc : osb4_access oracle addr read_write command I2C_SMBUS_BYTE data ⟨counts, []⟩ =
          osb4_access_run oracle read_write OSB4_BYTE data
            (outb_p (((addr &&& 0x7f) <<< 1) ||| (read_write &&& 0x01)) SMBHSTADD
              ⟨counts, []⟩) := by
        simp [osb4_access, osb4_access_regs, I2C_SMBUS_BYTE, I2C_SMBUS_PROC_CALL,
          I2C_SMBUS_QUICK, hwr]
      rw [hacc, osb4_access_run_wTo oracle read_write OSB4_BYTE data _ SMBHSTADD
        (by decide) (by decide)]
      simp [wTo]
  · by_cases hwr : read_write = I2C_SMBUS_WRITE
    · have hacc : osb4_access oracle addr read_write command I2C_SMBUS_BYTE_DATA data
          ⟨counts, []⟩ =
          osb4_access_run oracle read_write OSB4_BYTE_DATA data
            (outb_p data.byte SMBHSTDAT0
              (outb_p command SMBHSTCMD
                (outb_p (((addr &&& 0x7f) <<< 1) ||| (read_write &&& 0x01)) SMBHSTADD
                  ⟨counts, []⟩))) := by
        simp [osb4_access, osb4_access_regs, I2C_SMBUS_BYTE_DATA, I2C_SMBUS_PROC_CALL,
          I2C_SMBUS_QUICK, I2C_SMBUS_BYTE, hwr]
      rw [hacc, osb4_access_run_wTo oracle read_write OSB4_BYTE_DATA data _ SMBHSTADD
        (by decide) (by decide)]
      simp [wTo, SMBHSTADD, SMBHSTCMD, SMBHSTDAT0]
    · have hacc : osb4_access oracle addr read_write command I2C_SMBUS_BYTE_DATA data
          ⟨counts, []⟩ =
          osb4_access_run oracle read_write OSB4_BYTE_DATA data
            (outb_p command SMBHSTCMD
              (outb_p (((addr &&& 0x7f) <<< 1) ||| (read_write &&& 0x01)) SMBHSTADD
                ⟨counts, []⟩)) := by
        simp [osb4_access, osb4_access_regs, I2C_SMBUS_BYTE_DATA, I2C_SMBUS_PROC_CALL,
          I2C_SMBUS_QUICK, I2C_SMBUS_BYTE, hwr]
      rw [hacc, osb4_access_run_wTo oracle read_write OSB4_BYTE_DATA data _ SMBHSTADD
        (by decide) (by decide)]
      simp [wTo, SMBHSTADD, SMBHSTCMD]
  · by_cases hwr : read_write = I2C_SMBUS_WRITE
    · have hacc : osb4_access oracle addr read_write command I2C_SMBUS_WORD_DATA data
          ⟨counts, []⟩ =
          osb4_access_run oracle read_write OSB4_WORD_DATA data
            (outb_p ((data.word &&& 0xff00) >>> 8) SMBHSTDAT1
              (outb_p (data.word &&& 0xff) SMBHSTDAT0
                (outb_p command SMBHSTCMD
                  (outb_p (((addr &&& 0x7f) <<< 1) ||| (read_write &&& 0x01)) SMBHSTADD
                    ⟨counts, []⟩)))) := by
        simp [osb4_access, osb4_access_regs, I2C_SMBUS_WORD_DATA, I2C_SMBUS_PROC_CALL,
          I2C_SMBUS_QUICK, I2C_SMBUS_BYTE, I2C_SMBUS_BYTE_DATA, hwr]
      rw [hacc, osb4_access_run_wTo oracle read_write OSB4_WORD_DATA data _ SMBHSTADD
        (by decide) (by decide)]
      simp [wTo, SMBHSTADD, SMBHSTCMD, SMBHSTDAT0, SMBHSTDAT1]
    · have hacc : osb4_access oracle addr read_write command I2C_SMBUS_WORD_DATA data
          ⟨counts, []⟩ =
          osb4_access_run oracle read_write OSB4_WORD_DATA data
            (outb_p command SMBHSTCMD
              (outb_p (((addr &&& 0x7f) <<< 1) ||| (read_write &&& 0x01)) SMBHSTADD
                ⟨counts, []⟩)) := by
        simp [osb4_access, osb4_access_regs, I2C_SMBUS_WORD_DATA, I2C_SMBUS_PROC_CALL,
          I2C_SMBUS_QUICK, I2C_SMBUS_BYTE, I2C_SMBUS_BYTE_DATA, hwr]
      rw [hacc, osb4_access_run_wTo oracle read_write OSB4_WORD_DATA data _ SMBHSTADD
        (by decide) (by decide)]
      simp [wTo, SMBHSTADD, SMBHSTCMD]

/-- Witness for claim C6: a quick write to address 0x50 writes exactly
0xA0 to the address register. -/
theorem osb4_access_address_byte_witness :
    wTo SMBHSTADD (osb4_access (fun _ _ => 0) 0x50 I2C_SMBUS_WRITE 0 I2C_SMBUS_QUICK
      ⟨0, 0, fun _ => 0⟩ ⟨fun _ => 0, []⟩).2.2.trace = [0xA0] := by
  have h := osb4_access_address_byte (fun _ _ => 0) (fun _ => 0) 0x50 I2C_SMBUS_WRITE 0
    I2C_SMBUS_QUICK ⟨0, 0, fun _ => 0⟩ (Or.inl rfl)
  exact h

/-- Claim C7: a block-data write transmits the declared length clamped to
[0, 32]: the clamped length is the only byte written to data0, exactly
that many payload bytes (block[1], block[2], ...) are written to the
block-data port, and chronologically the length write is followed by one
throwaway command-register read and then the payload writes. -/
theorem osb4_block_write_sequence (oracle : Nat → Nat → Nat) (counts : Nat → Nat)
    (addr command : Nat) (data : SMBusData) :
    wTo SMBHSTDAT0 (osb4_access oracle addr I2C_SMBUS_WRITE command I2C_SMBUS_BLOCK_DATA data
        ⟨counts, []⟩).2.2.trace = [min (data.block 0) 32] ∧
    wTo SMBBLKDAT (osb4_access oracle addr I2C_SMBUS_WRITE command I2C_SMBUS_BLOCK_DATA data
        ⟨counts, []⟩).2.2.trace =
      (List.range (min (data.block 0) 32)).map (fun k => data.block (1 + k)) ∧
    ∃ c rest, (osb4_access oracle addr I2C_SMBUS_WRITE command I2C_SMBUS_BLOCK_DATA data
        ⟨counts, []⟩).2.2.trace =
      [Ev.wr SMBHSTADD (((addr &&& 0x7f) <<< 1) ||| (I2C_SMBUS_WRITE &&& 0x01)),
       Ev.wr SMBHSTCMD command,
       Ev.wr SMBHSTDAT0 (min (data.block 0) 32),
       Ev.rd SMBHSTCNT c] ++
      (List.range (min (data.block 0) 32)).map (fun k => Ev.wr SMBBLKDAT (data.block (1 + k))) ++
      rest := by
  have hacc : osb4_access oracle addr I2C_SMBUS_WRITE command I2C_SMBUS_BLOCK_DATA data
      ⟨counts, []⟩ =
      osb4_access_run oracle I2C_SMBUS_WRITE OSB4_BLOCK_DATA data
        (osb4_write_block data.block 1
          (if (if (data.block 0 : Int) < 0 then 0 else (data.block 0 : Int)) > 32 then 32
           else (if (data.block 0 : Int) < 0 then 0 else (data.block 0 : Int))).toNat
          ((inb_p oracle SMBHSTCNT
            (outb_p (if (if (data.block 0 : Int) < 0 then 0 else (data.block 0 : Int)) > 32
                then 32
                else (if (data.block 0 : Int) < 0 then 0 else (data.block 0 : Int))).toNat
              SMBHSTDAT0
              (outb_p command SMBHSTCMD
                (outb_p (((addr &&& 0x7f) <<< 1) ||| (I2C_SMBUS_WRITE &&& 0x01)) SMBHSTADD
                  ⟨counts, []⟩)))).2)) := rfl
  rw [osb4_len_clamp] at hacc
  refine ⟨?_, ?_, ?_⟩
  · rw [hacc, osb4_access_run_wTo oracle I2C_SMBUS_WRITE OSB4_BLOCK_DATA data _ SMBHSTDAT0
      (by decide) (by decide), osb4_write_block_spec]
    show wTo SMBHSTDAT0 ((inb_p oracle SMBHSTCNT _).2.trace ++ _) = _
    rw [wTo_append, inb_p_trace,
      wTo_map_wr_ne SMBHSTDAT0 SMBBLKDAT _ _ (by decide)]
    simp [wTo, SMBHSTADD, SMBHSTCMD, SMBHSTDAT0, SMBHSTCNT]
  · rw [hacc, osb4_access_run_wTo oracle I2C_SMBUS_WRITE OSB4_BLOCK_DATA data _ SMBBLKDAT
      (by decide) (by decide), osb4_write_block_spec]
    show wTo SMBBLKDAT ((inb_p oracle SMBHSTCNT _).2.trace ++ _) = _
    rw [wTo_append, inb_p_trace, wTo_map_wr_same]
    simp [wTo, SMBHSTADD, SMBHSTCMD, SMBHSTDAT0, SMBHSTCNT, SMBBLKDAT]
  · obtain ⟨δ, hr1, _, _, _, _⟩ := osb4_access_run_shape oracle I2C_SMBUS_WRITE
      OSB4_BLOCK_DATA data
      (osb4_write_block data.block 1 (min (data.block 0) 32)
        (inb_p oracle SMBHSTCNT
          (outb_p (min (data.block 0) 32) SMBHSTDAT0
            (outb_p command SMBHSTCMD
              (outb_p (((addr &&& 0x7f) <<< 1) ||| (I2C_SMBUS_WRITE &&& 0x01)) SMBHSTADD
                ⟨counts, []⟩)))).2)
    refine ⟨oracle SMBHSTCNT (counts SMBHSTCNT) % 256,
      Ev.wr SMBHSTCNT ((OSB4_BLOCK_DATA &&& 0x1C) + (ENABLE_INT9 &&& 1)) :: δ, ?_⟩
    rw [hacc, hr1, osb4_write_block_spec]
    show (inb_p oracle SMBHSTCNT _).2.trace ++ _ ++ _ = _
    rw [inb_p_trace]
    simp

/-- The busy check performed right after the control-register write sees
the same status-read counter as before the write. -/
theorem osb4_busy_pass_outb (oracle : Nat → Nat → Nat) (v port : Nat) (S1 : IOState)
    (hb : oracle SMBHSTSTS (S1.counts SMBHSTSTS) % 256 = 0 ∨
      oracle SMBHSTSTS (S1.counts SMBHSTSTS + 1) % 256 = 0) :
    (osb4_busy_check oracle (outb_p v port S1)).1 = true := by
  rw [osb4_busy_check_passes]
  simpa [outb_p] using hb

/-- When the busy check passes and nothing was written to the command
register before, a full osb4_access_run writes the command register
exactly twice: the control write with the size-class bits and the arming
write with the start bit. -/
theorem osb4_run_cnt_writes (oracle : Nat → Nat → Nat) (read_write size2 : Nat)
    (data : SMBusData) (S1 : IOState)
    (hW : wTo SMBHSTCNT S1.trace = [])
    (hpass : (osb4_busy_check oracle
      (outb_p ((size2 &&& 0x1C) + (ENABLE_INT9 &&& 1)) SMBHSTCNT S1)).1 = true) :
    ∃ c, wTo SMBHSTCNT (osb4_access_run oracle read_write size2 data S1).2.2.trace =
      [(size2 &&& 0x1C) + (ENABLE_INT9 &&& 1), c ||| 0x40] := by
  obtain ⟨δ, h1, _, h3, _, _⟩ := osb4_access_run_shape oracle read_write size2 data S1
  refine ⟨oracle SMBHSTCNT (S1.counts SMBHSTCNT) % 256, ?_⟩
  rw [h1, wTo_append, hW, wTo_cons_wr_same, h3, if_pos hpass]
  simp

/-- Claim C3, counterexample: a byte-data write with a clean bus produces
two separate command-register writes, 0x08 (size-class bits, start bit
clear) followed by 0x40 (start bit), not one merged write. -/
theorem osb4_cnt_write_split :
    wTo SMBHSTCNT (osb4_access (fun _ _ => 0) 0x50 I2C_SMBUS_WRITE 0x02 I2C_SMBUS_BYTE_DATA
      ⟨0, 0, fun _ => 0⟩ ⟨fun _ => 0, []⟩).2.2.trace = [0x08, 0x40] ∧
    ¬ (wTo SMBHSTCNT (osb4_access (fun _ _ => 0) 0x50 I2C_SMBUS_WRITE 0x02 I2C_SMBUS_BYTE_DATA
      ⟨0, 0, fun _ => 0⟩ ⟨fun _ => 0, []⟩).2.2.trace).length = 1 := by
  decide

/-- Claim C3, amended: for every supported transaction whose busy check
passes, the command register receives exactly two writes: first the
size-class code merged with the interrupt-enable bit (start bit clear),
then, from the transaction engine, the value read back from the command
register with the start bit (bit 6) ORed in. -/
theorem osb4_cnt_two_writes (oracle : Nat → Nat → Nat) (counts : Nat → Nat)
    (addr read_write command size : Nat) (data : SMBusData)
    (hs : size = I2C_SMBUS_QUICK ∨ size = I2C_SMBUS_BYTE ∨ size = I2C_SMBUS_BYTE_DATA ∨
      size = I2C_SMBUS_WORD_DATA ∨ size = I2C_SMBUS_BLOCK_DATA)
    (hb : oracle SMBHSTSTS (counts SMBHSTSTS) % 256 = 0 ∨
      oracle SMBHSTSTS (counts SMBHSTSTS + 1) % 256 = 0) :
    ∃ c, wTo SMBHSTCNT
      (osb4_access oracle addr read_write command size data ⟨counts, []⟩).2.2.trace =
      [(osb4_size_code size &&& 0x1C) + (ENABLE_INT9 &&& 1), c ||| 0x40] := by
  rcases hs with h | h | h | h | h <;> subst h
  · have hacc : osb4_access oracle addr read_write command I2C_SMBUS_QUICK data ⟨counts, []⟩ =
        osb4_access_run oracle read_write OSB4_QUICK data
          (outb_p (((addr &&& 0x7f) <<< 1) ||| (read_write &&& 0x01)) SMBHSTADD
            ⟨counts, []⟩) := rfl
    rw [hacc]
    exact osb4_run_cnt_writes oracle read_write OSB4_QUICK data _
      (by simp [wTo, SMBHSTADD, SMBHSTCNT])
      (osb4_busy_pass_outb oracle _ _ _ (by simpa [outb_p] using hb))
  · have hacc : osb4_access oracle addr read_write command I2C_SMBUS_BYTE data ⟨counts, []⟩ =
        osb4_access_run oracle read_write OSB4_BYTE data
          (if read_write = I2C_SMBUS_WRITE then
            outb_p command SMBHSTCMD
              (outb_p (((addr &&& 0x7f) <<< 1) ||| (read_write &&& 0x01)) SMBHSTADD
                ⟨counts, []⟩)
          else
            outb_p (((addr &&& 0x7f) <<< 1) ||| (read_write &&& 0x01)) SMBHSTADD
              ⟨counts, []⟩) := rfl
    rw [hacc]
    refine osb4_run_cnt_writes oracle read_write OSB4_BYTE data _ ?_
      (osb4_busy_pass_outb oracle _ _ _ ?_)
    · split <;> simp [wTo, SMBHSTCMD, SMBHSTADD, SMBHSTCNT]
    · split <;> simpa [outb_p] using hb
  · have hacc : osb4_access oracle addr read_write command I2C_SMBUS_BYTE_DATA data
        ⟨counts, []⟩ =
        osb4_access_run oracle read_write OSB4_BYTE_DATA data
          (if read_write = I2C_SMBUS_WRITE then
            outb_p data.byte SMBHSTDAT0
              (outb_p command SMBHSTCMD
                (outb_p (((addr &&& 0x7f) <<< 1) ||| (read_write &&& 0x01)) SMBHSTADD
                  ⟨counts, []⟩))
          else
            outb_p command SMBHSTCMD
              (outb_p (((addr &&& 0x7f) <<< 1) ||| (read_write &&& 0x01)) SMBHSTADD
                ⟨counts, []⟩)) := rfl
    rw [hacc]
    refine osb4_run_cnt_writes oracle read_write OSB4_BYTE_DATA data _ ?_
      (osb4_busy_pass_outb oracle _ _ _ ?_)
    · split <;> simp [wTo, SMBHSTCMD, SMBHSTADD, SMBHSTDAT0, SMBHSTCNT]
    · split <;> simpa [outb_p] using hb
  · have hacc : osb4_access oracle addr read_write command I2C_SMBUS_WORD_DATA data
        ⟨counts, []⟩ =
        osb4_access_run oracle read_write OSB4_WORD_DATA data
          (if read_write = I2C_SMBUS_WRITE then
            outb_p ((data.word &&& 0xff00) >>> 8) SMBHSTDAT1
              (outb_p (data.word &&& 0xff) SMBHSTDAT0
                (outb_p command SMBHSTCMD
                  (outb_p (((addr &&& 0x7f) <<< 1) ||| (read_write &&& 0x01)) SMBHSTADD
                    ⟨counts, []⟩)))
          else
            outb_p command SMBHSTCMD
              (outb_p (((addr &&& 0x7f) <<< 1) ||| (read_write &&& 0x01)) SMBHSTADD
                ⟨counts, []⟩)) := rfl
    rw [hacc]
    refine osb4_run_cnt_writes oracle read_write OSB4_WORD_DATA data _ ?_
      (osb4_busy_pass_outb oracle _ _ _ ?_)
    · split <;> simp [wTo, SMBHSTCMD, SMBHSTADD, SMBHSTDAT0, SMBHSTDAT1, SMBHSTCNT]
    · split <;> simpa [outb_p] using hb
  · have hacc : osb4_access oracle addr read_write command I2C_SMBUS_BLOCK_DATA data
        ⟨counts, []⟩ =
        osb4_access_run oracle read_write OSB4_BLOCK_DATA data
          (if read_write = I2C_SMBUS_WRITE then
            osb4_write_block data.block 1
              (if (if (data.block 0 : Int) < 0 then 0 else (data.block 0 : Int)) > 32 then 32
               else (if (data.block 0 : Int) < 0 then 0 else (data.block 0 : Int))).toNat
              (inb_p oracle SMBHSTCNT
                (outb_p (if (if (data.block 0 : Int) < 0 then 0
                    else (data.block 0 : Int)) > 32 then 32
                   else (if (data.block 0 : Int) < 0 then 0 else (data.block 0 : Int))).toNat
                  SMBHSTDAT0
                  (outb_p command SMBHSTCMD
                    (outb_p (((addr &&& 0x7f) <<< 1) ||| (read_write &&& 0x01)) SMBHSTADD
                      ⟨counts, []⟩)))).2
          else
            outb_p command SMBHSTCMD
              (outb_p (((addr &&& 0x7f) <<< 1) ||| (read_write &&& 0x01)) SMBHSTADD
                ⟨counts, []⟩)) := rfl
    rw [hacc]
    refine osb4_run_cnt_writes oracle read_write OSB4_BLOCK_DATA data _ ?_
      (osb4_busy_pass_outb oracle _ _ _ ?_)
    · split
      · rw [osb4_write_block_spec]
        show wTo SMBHSTCNT ((inb_p oracle SMBHSTCNT _).2.trace ++ _) = []
        rw [wTo_append, inb_p_trace,
          wTo_map_wr_ne SMBHSTCNT SMBBLKDAT _ _ (by decide)]
        simp [wTo, SMBHSTCMD, SMBHSTADD, SMBHSTDAT0, SMBHSTCNT]
      · simp [wTo, SMBHSTCMD, SMBHSTADD, SMBHSTCNT]
    · split
      · rw [osb4_write_block_spec]
        show oracle SMBHSTSTS ((⟨(inb_p oracle SMBHSTCNT _).2.counts, _⟩ : IOState).counts
          SMBHSTSTS) % 256 = 0 ∨ _
        simpa [inb_p, outb_p] using hb
      · simpa [outb_p] using hb

/-- Witness for the amended claim C3: a byte-data write on a clean bus
yields the two command-register writes. -/
theorem osb4_cnt_two_writes_witness :
    ∃ c, wTo SMBHSTCNT (osb4_access (fun _ _ => 0) 0x50 I2C_SMBUS_WRITE 0x02
      I2C_SMBUS_BYTE_DATA ⟨0, 0, fun _ => 0⟩ ⟨fun _ => 0, []⟩).2.2.trace =
      [(osb4_size_code I2C_SMBUS_BYTE_DATA &&& 0x1C) + (ENABLE_INT9 &&& 1), c ||| 0x40] :=
  osb4_cnt_two_writes (fun _ _ => 0) (fun _ => 0) 0x50 I2C_SMBUS_WRITE 0x02
    I2C_SMBUS_BYTE_DATA ⟨0, 0, fun _ => 0⟩ (Or.inr (Or.inr (Or.inl rfl)))
    (Or.inl (by decide))

/-- Claim C10: for a size argument outside the six handled cases,
osb4_access loads no address, command or data register (no write to any
of them ever happens), writes the control register with bits of the raw
size value as its first action, invokes the transaction engine anyway,
and returns an error only if the transaction engine itself fails. -/
theorem osb4_access_unhandled_size (oracle : Nat → Nat → Nat) (counts : Nat → Nat)
    (addr read_write command size : Nat) (data : SMBusData)
    (hs : ¬ (size = I2C_SMBUS_QUICK ∨ size = I2C_SMBUS_BYTE ∨ size = I2C_SMBUS_BYTE_DATA ∨
      size = I2C_SMBUS_WORD_DATA ∨ size = I2C_SMBUS_PROC_CALL ∨
      size = I2C_SMBUS_BLOCK_DATA)) :
    (∀ p, p = SMBHSTCMD ∨ p = SMBHSTADD ∨ p = SMBHSTDAT0 ∨ p = SMBHSTDAT1 ∨ p = SMBBLKDAT →
      wTo p (osb4_access oracle addr read_write command size data ⟨counts, []⟩).2.2.trace
        = []) ∧
    (∃ rest, (osb4_access oracle addr read_write command size data ⟨counts, []⟩).2.2.trace =
      Ev.wr SMBHSTCNT ((size &&& 0x1C) + (ENABLE_INT9 &&& 1)) :: rest) ∧
    ((osb4_transaction oracle (outb_p ((size &&& 0x1C) + (ENABLE_INT9 &&& 1)) SMBHSTCNT
        ⟨counts, []⟩)).1 = 0 →
      (osb4_access oracle addr read_write command size data ⟨counts, []⟩).1 = 0) ∧
    ((osb4_transaction oracle (outb_p ((size &&& 0x1C) + (ENABLE_INT9 &&& 1)) SMBHSTCNT
        ⟨counts, []⟩)).1 ≠ 0 →
      (osb4_access oracle addr read_write command size data ⟨counts, []⟩).1 = -1) := by
  push_neg at hs
  obtain ⟨h0, h1, h2, h3, h4, h5⟩ := hs
  have hacc : osb4_access oracle addr read_write command size data ⟨counts, []⟩ =
      osb4_access_run oracle read_write size data ⟨counts, []⟩ := by
    simp [osb4_access, osb4_access_regs, h0, h1, h2, h3, h4, h5]
  obtain ⟨δ, hr1, _, _, hr4, hr5⟩ :=
    osb4_access_run_shape oracle read_write size data ⟨counts, []⟩
  refine ⟨?_, ?_, ?_, ?_⟩
  · intro p hp
    rcases hp with h | h | h | h | h <;> subst h <;>
      rw [hacc, osb4_access_run_wTo oracle read_write size data _ _ (by decide) (by decide)] <;>
      rfl
  · refine ⟨δ, ?_⟩
    rw [hacc, hr1]
    simp
  · intro h
    rw [hacc]
    exact hr4 h
  · intro h
    rw [hacc]
    exact hr5 h

/-- Witness for claim C10: size 7 with a clean, instantly completing bus:
no data-register port is ever written and the access returns 0. -/
theorem osb4_access_unhandled_size_witness :
    wTo SMBHSTCMD (osb4_access (fun _ _ => 0) 0x10 I2C_SMBUS_READ 0 7 ⟨0, 0, fun _ => 0⟩
      ⟨fun _ => 0, []⟩).2.2.trace = [] ∧
    (osb4_access (fun _ _ => 0) 0x10 I2C_SMBUS_READ 0 7 ⟨0, 0, fun _ => 0⟩
      ⟨fun _ => 0, []⟩).1 = 0 := by
  refine ⟨(osb4_access_unhandled_size (fun _ _ => 0) (fun _ => 0) 0x10 I2C_SMBUS_READ 0 7
    ⟨0, 0, fun _ => 0⟩ (by decide)).1 SMBHSTCMD (Or.inl rfl), ?_⟩
  exact (osb4_access_unhandled_size (fun _ _ => 0) (fun _ => 0) 0x10 I2C_SMBUS_READ 0 7
    ⟨0, 0, fun _ => 0⟩ (by decide)).2.2.1 (by decide)

/-- Claim C9: on a successful block-data read, osb4_access stores the
device-reported length read from data0 into block[0] unclamped, copies
exactly that many bytes from the block-data port into block[1..length]
(even for indices past the 32-byte payload area when the reported length
exceeds 32), and leaves every entry beyond the reported length untouched. -/
theorem osb4_block_read_no_clamp (oracle : Nat → Nat → Nat) (counts : Nat → Nat)
    (addr command : Nat) (data : SMBusData)
    (hok : (osb4_access oracle addr I2C_SMBUS_READ command I2C_SMBUS_BLOCK_DATA data
      ⟨counts, []⟩).1 = 0) :
    (osb4_access oracle addr I2C_SMBUS_READ command I2C_SMBUS_BLOCK_DATA data
      ⟨counts, []⟩).2.1.block 0 = oracle SMBHSTDAT0 (counts SMBHSTDAT0) % 256 ∧
    (∀ j, 1 ≤ j → j ≤ oracle SMBHSTDAT0 (counts SMBHSTDAT0) % 256 →
      (osb4_access oracle addr I2C_SMBUS_READ command I2C_SMBUS_BLOCK_DATA data
        ⟨counts, []⟩).2.1.block j = oracle SMBBLKDAT (counts SMBBLKDAT + (j - 1)) % 256) ∧
    (∀ j, oracle SMBHSTDAT0 (counts SMBHSTDAT0) % 256 < j →
      (osb4_access oracle addr I2C_SMBUS_READ command I2C_SMBUS_BLOCK_DATA data
        ⟨counts, []⟩).2.1.block j = data.block j) := by
  have hacc : osb4_access oracle addr I2C_SMBUS_READ command I2C_SMBUS_BLOCK_DATA data
      ⟨counts, []⟩ =
      osb4_access_run oracle I2C_SMBUS_READ OSB4_BLOCK_DATA data
        (outb_p command SMBHSTCMD
          (outb_p (((addr &&& 0x7f) <<< 1) ||| (I2C_SMBUS_READ &&& 0x01)) SMBHSTADD
            ⟨counts, []⟩)) := rfl
  rw [hacc] at hok
  obtain ⟨δ, _, _, _, _, hr5⟩ := osb4_access_run_shape oracle I2C_SMBUS_READ OSB4_BLOCK_DATA
    data (outb_p command SMBHSTCMD
      (outb_p (((addr &&& 0x7f) <<< 1) ||| (I2C_SMBUS_READ &&& 0x01)) SMBHSTADD
        ⟨counts, []⟩))
  have htr : (osb4_transaction oracle
      (outb_p ((OSB4_BLOCK_DATA &&& 0x1C) + (ENABLE_INT9 &&& 1)) SMBHSTCNT
        (outb_p command SMBHSTCMD
          (outb_p (((addr &&& 0x7f) <<< 1) ||| (I2C_SMBUS_READ &&& 0x01)) SMBHSTADD
            ⟨counts, []⟩)))).1 = 0 := by
    by_contra hne
    rw [hr5 hne] at hok
    exact absurd hok (by decide)
  have hrun : osb4_access_run oracle I2C_SMBUS_READ OSB4_BLOCK_DATA data
      (outb_p command SMBHSTCMD
        (outb_p (((addr &&& 0x7f) <<< 1) ||| (I2C_SMBUS_READ &&& 0x01)) SMBHSTADD
          ⟨counts, []⟩)) =
      ((0 : Int), { data with block := (osb4_read_block oracle 1
          ((fun j => if j = 0 then (inb_p oracle SMBHSTDAT0 (osb4_transaction oracle
            (outb_p ((OSB4_BLOCK_DATA &&& 0x1C) + (ENABLE_INT9 &&& 1)) SMBHSTCNT
              (outb_p command SMBHSTCMD
                (outb_p (((addr &&& 0x7f) <<< 1) ||| (I2C_SMBUS_READ &&& 0x01)) SMBHSTADD
                  ⟨counts, []⟩)))).2).1 else data.block j) 0)
          (fun j => if j = 0 then (inb_p oracle SMBHSTDAT0 (osb4_transaction oracle
            (outb_p ((OSB4_BLOCK_DATA &&& 0x1C) + (ENABLE_INT9 &&& 1)) SMBHSTCNT
              (outb_p command SMBHSTCMD
                (outb_p (((addr &&& 0x7f) <<< 1) ||| (I2C_SMBUS_READ &&& 0x01)) SMBHSTADD
                  ⟨counts, []⟩)))).2).1 else data.block j)
          (inb_p oracle SMBHSTCNT (inb_p oracle SMBHSTDAT0 (osb4_transaction oracle
            (outb_p ((OSB4_BLOCK_DATA &&& 0x1C) + (ENABLE_INT9 &&& 1)) SMBHSTCNT
              (outb_p command SMBHSTCMD
                (outb_p (((addr &&& 0x7f) <<< 1) ||| (I2C_SMBUS_READ &&& 0x01)) SMBHSTADD
                  ⟨counts, []⟩)))).2).2).2).1 },
        (osb4_read_block oracle 1
          ((fun j => if j = 0 then (inb_p oracle SMBHSTDAT0 (osb4_transaction oracle
            (outb_p ((OSB4_BLOCK_DATA &&& 0x1C) + (ENABLE_INT9 &&& 1)) SMBHSTCNT
              (outb_p command SMBHSTCMD
                (outb_p (((addr &&& 0x7f) <<< 1) ||| (I2C_SMBUS_READ &&& 0x01)) SMBHSTADD
                  ⟨counts, []⟩)))).2).1 else data.block j) 0)
          (fun j => if j = 0 then (inb_p oracle SMBHSTDAT0 (osb4_transaction oracle
            (outb_p ((OSB4_BLOCK_DATA &&& 0x1C) + (ENABLE_INT9 &&& 1)) SMBHSTCNT
              (outb_p command SMBHSTCMD
                (outb_p (((addr &&& 0x7f) <<< 1) ||| (I2C_SMBUS_READ &&& 0x01)) SMBHSTADD
                  ⟨counts, []⟩)))).2).1 else data.block j)
          (inb_p oracle SMBHSTCNT (inb_p oracle SMBHSTDAT0 (osb4_transaction oracle
            (outb_p ((OSB4_BLOCK_DATA &&& 0x1C) + (ENABLE_INT9 &&& 1)) SMBHSTCNT
              (outb_p command SMBHSTCMD
                (outb_p (((addr &&& 0x7f) <<< 1) ||| (I2C_SMBUS_READ &&& 0x01)) SMBHSTADD
                  ⟨counts, []⟩)))).2).2).2).2) := by
    unfold osb4_access_run
    rw [if_neg (not_not_intro htr), if_neg (by decide), if_neg (by decide), if_neg (by decide),
      if_neg (by decide), if_pos rfl]
  obtain ⟨_, _, _, _, _, ht5⟩ := osb4_transaction_shape oracle
    (outb_p ((OSB4_BLOCK_DATA &&& 0x1C) + (ENABLE_INT9 &&& 1)) SMBHSTCNT
      (outb_p command SMBHSTCMD
        (outb_p (((addr &&& 0x7f) <<< 1) ||| (I2C_SMBUS_READ &&& 0x01)) SMBHSTADD
          ⟨counts, []⟩)))
  have h5 : (osb4_transaction oracle
      (outb_p ((OSB4_BLOCK_DATA &&& 0x1C) + (ENABLE_INT9 &&& 1)) SMBHSTCNT
        (outb_p command SMBHSTCMD
          (outb_p (((addr &&& 0x7f) <<< 1) ||| (I2C_SMBUS_READ &&& 0x01)) SMBHSTADD
            ⟨counts, []⟩)))).2.counts SMBHSTDAT0 = counts SMBHSTDAT0 := by
    rw [ht5 SMBHSTDAT0 (by decide) (by decide)]
    rfl
  have h7 : (osb4_transaction oracle
      (outb_p ((OSB4_BLOCK_DATA &&& 0x1C) + (ENABLE_INT9 &&& 1)) SMBHSTCNT
        (outb_p command SMBHSTCMD
          (outb_p (((addr &&& 0x7f) <<< 1) ||| (I2C_SMBUS_READ &&& 0x01)) SMBHSTADD
            ⟨counts, []⟩)))).2.counts SMBBLKDAT = counts SMBBLKDAT := by
    rw [ht5 SMBBLKDAT (by decide) (by decide)]
    rfl
  have hlen : (inb_p oracle SMBHSTDAT0 (osb4_transaction oracle
      (outb_p ((OSB4_BLOCK_DATA &&& 0x1C) + (ENABLE_INT9 &&& 1)) SMBHSTCNT
        (outb_p command SMBHSTCMD
          (outb_p (((addr &&& 0x7f) <<< 1) ||| (I2C_SMBUS_READ &&& 0x01)) SMBHSTADD
            ⟨counts, []⟩)))).2).1 = oracle SMBHSTDAT0 (counts SMBHSTDAT0) % 256 := by
    rw [inb_p_fst, h5]
  obtain ⟨hs1, _, _, _⟩ := osb4_read_block_spec oracle 1
    ((fun j => if j = 0 then (inb_p oracle SMBHSTDAT0 (osb4_transaction oracle
      (outb_p ((OSB4_BLOCK_DATA &&& 0x1C) + (ENABLE_INT9 &&& 1)) SMBHSTCNT
        (outb_p command SMBHSTCMD
          (outb_p (((addr &&& 0x7f) <<< 1) ||| (I2C_SMBUS_READ &&& 0x01)) SMBHSTADD
            ⟨counts, []⟩)))).2).1 else data.block j) 0)
    (fun j => if j = 0 then (inb_p oracle SMBHSTDAT0 (osb4_transaction oracle
      (outb_p ((OSB4_BLOCK_DATA &&& 0x1C) + (ENABLE_INT9 &&& 1)) SMBHSTCNT
        (outb_p command SMBHSTCMD
          (outb_p (((addr &&& 0x7f) <<< 1) ||| (I2C_SMBUS_READ &&& 0x01)) SMBHSTADD
            ⟨counts, []⟩)))).2).1 else data.block j)
    (inb_p oracle SMBHSTCNT (inb_p oracle SMBHSTDAT0 (osb4_transaction oracle
      (outb_p ((OSB4_BLOCK_DATA &&& 0x1C) + (ENABLE_INT9 &&& 1)) SMBHSTCNT
        (outb_p command SMBHSTCMD
          (outb_p (((addr &&& 0x7f) <<< 1) ||| (I2C_SMBUS_READ &&& 0x01)) SMBHSTADD
            ⟨counts, []⟩)))).2).2).2
  have hb0 : ((fun j => if j = 0 then (inb_p oracle SMBHSTDAT0 (osb4_transaction oracle
      (outb_p ((OSB4_BLOCK_DATA &&& 0x1C) + (ENABLE_INT9 &&& 1)) SMBHSTCNT
        (outb_p command SMBHSTCMD
          (outb_p (((addr &&& 0x7f) <<< 1) ||| (I2C_SMBUS_READ &&& 0x01)) SMBHSTADD
            ⟨counts, []⟩)))).2).1 else data.block j) 0 : Nat)
      = oracle SMBHSTDAT0 (counts SMBHSTDAT0) % 256 := by
    simpa using hlen
  have hst7 : (inb_p oracle SMBHSTCNT (inb_p oracle SMBHSTDAT0 (osb4_transaction oracle
      (outb_p ((OSB4_BLOCK_DATA &&& 0x1C) + (ENABLE_INT9 &&& 1)) SMBHSTCNT
        (outb_p command SMBHSTCMD
          (outb_p (((addr &&& 0x7f) <<< 1) ||| (I2C_SMBUS_READ &&& 0x01)) SMBHSTADD
            ⟨counts, []⟩)))).2).2).2.counts SMBBLKDAT = counts SMBBLKDAT := by
    rw [inb_p_counts_ne _ _ _ _ (by decide), inb_p_counts_ne _ _ _ _ (by decide), h7]
  refine ⟨?_, ?_, ?_⟩
  · rw [hacc, hrun]
    show (osb4_read_block oracle 1 _ _ _).1 0 = _
    rw [hs1 0, if_neg (by omega)]
    simpa using hlen
  · intro j hj1 hj2
    rw [hacc, hrun]
    show (osb4_read_block oracle 1 _ _ _).1 j = _
    rw [hs1 j, if_pos ⟨hj1, by rw [hb0]; omega⟩, hst7]
  · intro j hj
    rw [hacc, hrun]
    show (osb4_read_block oracle 1 _ _ _).1 j = _
    rw [hs1 j, if_neg (by rw [hb0]; omega), if_neg (by omega : ¬ j = 0)]

/-- Witness for claim C9: a device reporting block length 40 (> 32) makes
the driver store block[0] = 40 and copy the 40th byte into index 40, past
the 32-byte payload area. -/
theorem osb4_block_read_no_clamp_witness :
    (osb4_access (fun p i => if p = 5 then 40 else if p = 7 then 100 + i else 0) 0x48
      I2C_SMBUS_READ 0 I2C_SMBUS_BLOCK_DATA ⟨0, 0, fun _ => 0⟩
      ⟨fun _ => 0, []⟩).2.1.block 0 = 40 ∧
    (osb4_access (fun p i => if p = 5 then 40 else if p = 7 then 100 + i else 0) 0x48
      I2C_SMBUS_READ 0 I2C_SMBUS_BLOCK_DATA ⟨0, 0, fun _ => 0⟩
      ⟨fun _ => 0, []⟩).2.1.block 40 = 139 := by
  have h := osb4_block_read_no_clamp
    (fun p i => if p = 5 then 40 else if p = 7 then 100 + i else 0) (fun _ => 0) 0x48 0
    ⟨0, 0, fun _ => 0⟩ (by decide)
  refine ⟨?_, ?_⟩
  · have h0 := h.1
    simpa using h0
  · have h40 := h.2.1 40 (by decide) (by decide)
    simpa using h40

/- ---------------- Controller locator claim ----------------------------- -/

/-- Claim C8: whenever force_addr is set and the device is found with its
I/O region free, osb4_setup uses force_addr masked with 0xfff0 as the
base address and performs the three-step configuration sequence — write
the host-configuration byte with the enable bit cleared, write the new
base address, write the host-configuration byte with the enable bit set —
whatever the initial value of the enable bit in the host-configuration
byte. -/
theorem osb4_setup_force_addr (force force_addr : Nat) (env : SetupEnv)
    (ha : force_addr ≠ 0) (h1 : env.pci_present = true) (h2 : env.found_function0 = true)
    (h3 : env.region_used = false) :
    (osb4_setup force force_addr env).error_return = 0 ∧
    (osb4_setup force force_addr env).osb4_smba = force_addr &&& 0xfff0 ∧
    (osb4_setup force force_addr env).cfg_writes =
      [CfgEv.wbyte SMBHSTCFG (env.hstcfg_reg &&& 0xfe),
       CfgEv.wword SMBBA (force_addr &&& 0xfff0),
       CfgEv.wbyte SMBHSTCFG (env.hstcfg_reg ||| 0x01)] := by
  refine ⟨?_, ?_, ?_⟩ <;> simp [osb4_setup, ha, h1, h2, h3]

/-- Witness for claim C8: forcing address 0x1000 with the enable bit
initially set (host-configuration byte 0x01) still performs the
disable-relocate-enable write sequence. -/
theorem osb4_setup_force_addr_witness :
    (osb4_setup 0 0x1000 ⟨true, true, 0, false, 0x01⟩).error_return = 0 ∧
    (osb4_setup 0 0x1000 ⟨true, true, 0, false, 0x01⟩).osb4_smba = 0x1000 ∧
    (osb4_setup 0 0x1000 ⟨true, true, 0, false, 0x01⟩).cfg_writes =
      [CfgEv.wbyte SMBHSTCFG 0x00, CfgEv.wword SMBBA 0x1000,
       CfgEv.wbyte SMBHSTCFG 0x01] := by
  have h := osb4_setup_force_addr 0 0x1000 ⟨true, true, 0, false, 0x01⟩ (by decide) rfl rfl rfl
  exact ⟨h.1, h.2.1, h.2.2⟩
